import Mathlib

/-!
Verification of the binary encoding and accounting core of the chain-libs
repository (crates chain-impl-mockchain and chain-ser), against its
natural-language specification.

The Rust sources are shallowly embedded: machine integers become natural
numbers with explicit reduction modulo two to the word size where the source
can overflow, byte streams become lists of naturals below 256, fallible
operations return Option or Except, and a Rust panic (assertion failure,
unchecked unwrap, division by zero, arithmetic overflow under debug
assertions) is an absent value. Types whose code lives outside the provided
sources are modelled from the specification and carry a comment saying so.
-/

namespace ChainSpec

/-! ## Byte-level primitives (chain-ser src/packer.rs, big-endian integers) -/

/-- Big-endian encoding of a natural number into w bytes, as produced by the
Rust to_be_bytes family used throughout the codec (chain-ser packer.rs). -/
def beBytes : Nat → Nat → List Nat
  | 0, _ => []
  | w + 1, n => beBytes w (n / 256) ++ [n % 256]

/-- Big-endian value of a byte list, as computed by from_be_bytes. -/
def beVal (l : List Nat) : Nat := l.foldl (fun acc b => acc * 256 + b) 0

theorem beBytes_length (w n : Nat) : (beBytes w n).length = w := by
  induction w generalizing n with
  | zero => rfl
  | succ w ih => simp [beBytes, ih]

theorem beVal_append_singleton (l : List Nat) (b : Nat) :
    beVal (l ++ [b]) = beVal l * 256 + b := by
  simp [beVal, List.foldl_append]

theorem beVal_beBytes (w n : Nat) : beVal (beBytes w n) = n % 256 ^ w := by
  induction w generalizing n with
  | zero => simp [beBytes, beVal, Nat.mod_one]
  | succ w ih =>
    rw [beBytes, beVal_append_singleton, ih]
    have h256 : (256 : Nat) ^ (w + 1) = 256 * 256 ^ w := by ring
    rw [h256, Nat.mod_mul]
    omega

theorem beVal_beBytes_of_lt {w n : Nat} (h : n < 256 ^ w) :
    beVal (beBytes w n) = n := by
  rw [beVal_beBytes, Nat.mod_eq_of_lt h]

/-! ## Stake arithmetic (chain-impl-mockchain src/stake/stake.rs) -/

/-- Stake(pub u64): a consensus weight (stake.rs line 9). -/
structure Stake where
  val : Nat
deriving DecidableEq

/-- StakeUnit(Stake) (stake.rs line 12). -/
structure StakeUnit where
  unit : Stake
deriving DecidableEq

/-- PercentStake: pair of stake and total (stake.rs lines 15-18). -/
structure PercentStake where
  stake : Stake
  total : Stake
deriving DecidableEq

/-- SplitValueIn: quotient parts plus remainder (stake.rs lines 21-24). -/
structure SplitValueIn where
  parts : StakeUnit
  remaining : Stake
deriving DecidableEq

/-- impl Add for Stake (stake.rs lines 115-121): the unchecked u64 addition
self.0 + other.0. As compiled for release this wraps modulo two to the 64;
under debug assertions it aborts; in neither build does it report an
overflow condition to the caller. AddAssign (lines 123-127) applies the same
expression. -/
def Stake.add (a b : Stake) : Stake := ⟨(a.val + b.val) % 2 ^ 64⟩

/-- Stake::checked_add (stake.rs lines 43-45): u64 checked_add. -/
def Stake.checked_add (a b : Stake) : Option Stake :=
  if a.val + b.val < 2 ^ 64 then some ⟨a.val + b.val⟩ else none

/-- Stake::checked_sub (stake.rs lines 48-50): u64 checked_sub. -/
def Stake.checked_sub (a b : Stake) : Option Stake :=
  if b.val ≤ a.val then some ⟨a.val - b.val⟩ else none

/-- Stake::sum (stake.rs lines 35-40): fold of the unchecked Add operator
starting from Stake(0). -/
def Stake.sum (l : List Stake) : Stake := l.foldl Stake.add ⟨0⟩

/-- Stake::split_in (stake.rs lines 63-69): quotient and remainder by n,
where n is a u32 widened to u64. Division by n = 0 aborts the program,
modelled as an absent value. -/
def Stake.split_in (s : Stake) (n : Nat) : Option SplitValueIn :=
  if n = 0 then none else some ⟨⟨⟨s.val / n⟩⟩, ⟨s.val % n⟩⟩

/-- StakeUnit::scale (stake.rs lines 86-88): u64 checked_mul followed by
unwrap; multiplication overflow aborts, modelled as an absent value. -/
def StakeUnit.scale (u : StakeUnit) (n : Nat) : Option Stake :=
  if u.unit.val * n < 2 ^ 64 then some ⟨u.unit.val * n⟩ else none

/-- PercentStake::new (stake.rs lines 92-95): assert!(stake <= total), a
failed assertion aborts, modelled as an absent value. -/
def PercentStake.new (stake total : Stake) : Option PercentStake :=
  if stake.val ≤ total.val then some ⟨stake, total⟩ else none

/-- The fixed point scale factor of scale_value (stake.rs line 108). -/
def SCALE : Nat := 1000000000000000000

/-- Value(pub u64): a monetary amount (value.rs, outside the provided
sources; the spec fixes it as a non-negative 64-bit magnitude). -/
structure Value where
  val : Nat
deriving DecidableEq

/-- PercentStake::scale_value (stake.rs lines 107-112): computes
(v * SCALE / total) * stake / SCALE in u128, then truncates to u64. The u128
multiplications wrap modulo two to the 128 as compiled for release; the
division by total aborts when total is zero, modelled as an absent value. -/
def PercentStake.scale_value (ps : PercentStake) (v : Value) : Option Value :=
  if ps.total.val = 0 then none
  else
    let scaled_divided := v.val * SCALE % 2 ^ 128 / ps.total.val
    some ⟨scaled_divided * ps.stake.val % 2 ^ 128 / SCALE % 2 ^ 64⟩

/-! ## Pots accounting (chain-impl-mockchain src/ledger/pots.rs) -/

/-- Modelled from the spec: Value subtraction (value.rs is outside the
provided sources) is checked and reports underflow instead of wrapping. -/
def Value.sub (a b : Value) : Option Value :=
  if b.val ≤ a.val then some ⟨a.val - b.val⟩ else none

/-- Pots (pots.rs lines 13-17): the three value pools. The treasury field is
the Treasury collaborator type, read and written here through its plain
value, so it is carried as that value. -/
structure Pots where
  fees : Value
  treasury : Value
  rewards : Value
deriving DecidableEq

/-- Pots::draw_reward (pots.rs lines 129-133): draws min(rewards, expected)
from the rewards pool; the unwrap of the checked subtraction aborts on
underflow, modelled as an absent value. -/
def Pots.draw_reward (p : Pots) (expected : Value) : Option (Value × Pots) :=
  let to_draw : Value := if p.rewards.val ≤ expected.val then p.rewards else expected
  (Value.sub p.rewards to_draw).map fun r => (to_draw, { p with rewards := r })

/-- Pots::siphon_fees (pots.rs lines 143-147): empties the fee pool and
returns the prior amount. -/
def Pots.siphon_fees (p : Pots) : Value × Pots :=
  (p.fees, { p with fees := ⟨0⟩ })

/-! ## Parameter codec (chain-impl-mockchain src/config.rs) -/

/-- Error enum of the parameter codec (config.rs lines 29-36). -/
inductive CfgError
  | invalidTag
  | sizeInvalid
  | boolInvalid
  | structureInvalid
  | unknownString (s : String)
deriving DecidableEq

/-- Display messages of the codec errors (config.rs lines 38-48). -/
def CfgError.message : CfgError → String
  | .invalidTag => "Invalid config parameter tag"
  | .sizeInvalid => "Invalid config parameter size"
  | .boolInvalid => "Invalid Boolean in config parameter"
  | .structureInvalid => "Invalid config parameter structure"
  | .unknownString s => ("Invalid config parameter string " ++ s)

/-- Tag enum of the config parameters (config.rs lines 191-248), without the
feature-gated EvmParams variant. Discriminants are stable and never reach
1024 (comment at line 190). -/
inductive Tag
  | discrimination
  | block0Date
  | consensusVersion
  | slotsPerEpoch
  | slotDuration
  | epochStabilityDepth
  | consensusGenesisPraosActiveSlotsCoeff
  | blockContentMaxSize
  | addBftLeader
  | removeBftLeader
  | linearFee
  | proposalExpiration
  | kesUpdateSpeed
  | treasuryAdd
  | treasuryParams
  | rewardPot
  | rewardParams
  | perCertificateFees
  | feesInTreasury
  | rewardLimitNone
  | rewardLimitByAbsoluteStake
  | poolRewardParticipationCapping
  | addCommitteeId
  | removeCommitteeId
  | perVoteCertificateFees
  | transactionMaxExpiryEpochs
deriving DecidableEq

/-- Numeric discriminant of a Tag: the `tag as u16` cast of the Rust enum
(values declared at config.rs lines 191-248). -/
def Tag.toU16 : Tag → Nat
  | .discrimination => 1
  | .block0Date => 2
  | .consensusVersion => 3
  | .slotsPerEpoch => 4
  | .slotDuration => 5
  | .epochStabilityDepth => 6
  | .consensusGenesisPraosActiveSlotsCoeff => 8
  | .blockContentMaxSize => 9
  | .addBftLeader => 11
  | .removeBftLeader => 12
  | .linearFee => 14
  | .proposalExpiration => 15
  | .kesUpdateSpeed => 16
  | .treasuryAdd => 17
  | .treasuryParams => 18
  | .rewardPot => 19
  | .rewardParams => 20
  | .perCertificateFees => 21
  | .feesInTreasury => 22
  | .rewardLimitNone => 23
  | .rewardLimitByAbsoluteStake => 24
  | .poolRewardParticipationCapping => 25
  | .addCommitteeId => 26
  | .removeCommitteeId => 27
  | .perVoteCertificateFees => 28
  | .transactionMaxExpiryEpochs => 29

/-- Tag::from_u16 (config.rs lines 251-283). -/
def Tag.from_u16 : Nat → Option Tag
  | 1 => some .discrimination
  | 2 => some .block0Date
  | 3 => some .consensusVersion
  | 4 => some .slotsPerEpoch
  | 5 => some .slotDuration
  | 6 => some .epochStabilityDepth
  | 8 => some .consensusGenesisPraosActiveSlotsCoeff
  | 9 => some .blockContentMaxSize
  | 11 => some .addBftLeader
  | 12 => some .removeBftLeader
  | 14 => some .linearFee
  | 15 => some .proposalExpiration
  | 16 => some .kesUpdateSpeed
  | 17 => some .treasuryAdd
  | 18 => some .treasuryParams
  | 19 => some .rewardPot
  | 20 => some .rewardParams
  | 21 => some .perCertificateFees
  | 22 => some .feesInTreasury
  | 23 => some .rewardLimitNone
  | 24 => some .rewardLimitByAbsoluteStake
  | 25 => some .poolRewardParticipationCapping
  | 26 => some .addCommitteeId
  | 27 => some .removeCommitteeId
  | 28 => some .perVoteCertificateFees
  | 29 => some .transactionMaxExpiryEpochs
  | _ => none

/-- TagLen(u16): the packed tag and length word (config.rs lines 1033-1034). -/
structure TagLen where
  val : Nat
deriving DecidableEq

/-- MAXIMUM_LEN (config.rs line 1036). -/
def MAXIMUM_LEN : Nat := 64

/-- TagLen::new (config.rs lines 1039-1045): pack (tag as u16) << 6 | len.
The length is checked against MAXIMUM_LEN before the usize to u16 cast, and
tag discriminants stay below 1024, so neither cast nor the shift loses bits. -/
def TagLen.new (t : Tag) (len : Nat) : Option TagLen :=
  if len < MAXIMUM_LEN then some ⟨t.toU16 <<< 6 ||| len⟩ else none

/-- TagLen::get_len (config.rs lines 1047-1049): the low six bits. -/
def TagLen.get_len (x : TagLen) : Nat := x.val &&& 63

/-- TagLen::get_tag (config.rs lines 1051-1053). -/
def TagLen.get_tag (x : TagLen) : Except CfgError Tag :=
  match Tag.from_u16 (x.val >>> 6) with
  | some t => .ok t
  | none => .error .invalidTag

theorem tagLen_new_eq (t : Tag) {len : Nat} (h : len < 64) :
    TagLen.new t len = some ⟨64 * t.toU16 + len⟩ := by
  have hor : t.toU16 <<< 6 ||| len = 64 * t.toU16 + len := by
    rw [Nat.shiftLeft_eq, Nat.mul_comm]
    exact (Nat.mul_add_lt_is_or (by simpa using h) t.toU16).symm
  simp [TagLen.new, MAXIMUM_LEN, h, hor]

theorem tagLen_get_len_packed (t : Tag) {len : Nat} (h : len < 64) :
    TagLen.get_len ⟨64 * t.toU16 + len⟩ = len := by
  have h63 : (63 : Nat) = 2 ^ 6 - 1 := by norm_num
  rw [TagLen.get_len, h63, Nat.and_pow_two_sub_one_eq_mod]
  show (64 * t.toU16 + len) % 64 = len
  rw [Nat.mul_add_mod]
  exact Nat.mod_eq_of_lt h

theorem from_u16_toU16 (t : Tag) : Tag.from_u16 t.toU16 = some t := by
  cases t <;> rfl

theorem tagLen_get_tag_packed (t : Tag) {len : Nat} (h : len < 64) :
    TagLen.get_tag ⟨64 * t.toU16 + len⟩ = .ok t := by
  have hdiv : (64 * t.toU16 + len) >>> 6 = t.toU16 := by
    rw [Nat.shiftRight_eq_div_pow]
    show (64 * t.toU16 + len) / 64 = t.toU16
    rw [Nat.mul_add_div (by norm_num)]
    simp [Nat.div_eq_of_lt h]
  rw [TagLen.get_tag, hdiv, from_u16_toU16]

/-! ### ReadBuf primitives used by the per-variant decoders

Modelled from the spec: ReadBuf (chain-core mempack, outside the provided
sources) is the byte cursor collaborator of section 6; reads propagate a
short read as a fatal error, expect_end rejects unconsumed bytes, and the
nonzero readers reject a zero word. Its errors convert into the codec error
enum as StructureInvalid (config.rs lines 52-56). -/

/-- get_slice through the From conversion into the codec error enum. -/
def rbSlice (n : Nat) (p : List Nat) : Except CfgError (List Nat × List Nat) :=
  if n ≤ p.length then .ok (p.take n, p.drop n) else .error .structureInvalid

/-- get_u8 on a ReadBuf. -/
def rbU8 (p : List Nat) : Except CfgError (Nat × List Nat) :=
  (rbSlice 1 p).map fun x => (beVal x.1, x.2)

/-- get_u32 on a ReadBuf. -/
def rbU32 (p : List Nat) : Except CfgError (Nat × List Nat) :=
  (rbSlice 4 p).map fun x => (beVal x.1, x.2)

/-- get_u64 on a ReadBuf. -/
def rbU64 (p : List Nat) : Except CfgError (Nat × List Nat) :=
  (rbSlice 8 p).map fun x => (beVal x.1, x.2)

/-- get_nz_u32 on a ReadBuf: rejects zero. -/
def rbNzU32 (p : List Nat) : Except CfgError (Nat × List Nat) := do
  let (v, r) ← rbU32 p
  if v = 0 then .error .structureInvalid else .ok (v, r)

/-- get_nz_u64 on a ReadBuf: rejects zero. -/
def rbNzU64 (p : List Nat) : Except CfgError (Nat × List Nat) := do
  let (v, r) ← rbU64 p
  if v = 0 then .error .structureInvalid else .ok (v, r)

/-- expect_end on a ReadBuf. -/
def rbEnd (p : List Nat) : Except CfgError Unit :=
  if p.isEmpty then .ok () else .error .structureInvalid

/-! ### Payload types of the config parameters -/

/-- Block0Date(pub u64) (config.rs line 490). -/
structure Block0Date where
  v : Nat
deriving DecidableEq

/-- Discrimination (chain-addr collaborator; its two variants and their
payload bytes VAL_PROD = 1, VAL_TEST = 2 are fixed by config.rs 617-638). -/
inductive Discrimination
  | production
  | test
deriving DecidableEq

/-- Modelled from the spec: ConsensusType (chaintypes.rs is outside the
provided sources) is a closed enum whose numeric conversions are exact
inverses over the valid set (spec section 4.2); its two versions carry the
wire words one and two. -/
inductive ConsensusType
  | bft
  | genesisPraos
deriving DecidableEq

/-- The `self as u16` cast of ConsensusType. -/
def ConsensusType.toU16 : ConsensusType → Nat
  | .bft => 1
  | .genesisPraos => 2

/-- ConsensusType::from_u16. -/
def ConsensusType.from_u16 : Nat → Option ConsensusType
  | 1 => some .bft
  | 2 => some .genesisPraos
  | _ => none

/-- Modelled from the spec: Milli (milli.rs is outside the provided sources)
is a u64 count of thousandths; to_millis and from_millis are its lossless
conversions (config.rs lines 742-750 route the payload through them). -/
structure Milli where
  millis : Nat
deriving DecidableEq

/-- Modelled from the spec: BftLeaderId wraps a public key serialized as its
raw bytes (spec section 4.2, raw bytes for keys); the ed25519 key is 32
bytes and from_binary rejects any other length (mapped to SizeInvalid at
config.rs lines 661-665). -/
structure BftLeaderId where
  bytes : List Nat
deriving DecidableEq

/-- Modelled from the spec: CommitteeId (vote.rs is outside the provided
sources) is a fixed 32-byte identifier serialized as raw bytes; try_from
rejects any other length (mapped to UnknownString at config.rs 842-845). -/
structure CommitteeId where
  bytes : List Nat
deriving DecidableEq

/-- Ratio of the rewards module (named Rational here): u64 numerator over
NonZeroU64 denominator; its payload layout is fixed by config.rs 515-533. -/
structure Rational where
  numerator : Nat
  denominator : Nat
deriving DecidableEq

/-- Modelled from the spec: TaxType (rewards.rs is outside the provided
sources) is a compound parameter with a nested fixed layout (spec section
4.2): a fixed u64 cut, a ratio, and an optional nonzero u64 limit written as
zero when absent; its encoder and decoder are exact inverses (spec section
8, round-trip law). -/
structure TaxType where
  fixed : Nat
  ratio : Rational
  max_limit : Option Nat
deriving DecidableEq

/-- RewardParams (config.rs lines 96-110). -/
inductive RewardParams
  | linear (constant : Nat) (ratio : Rational) (epoch_start : Nat) (epoch_rate : Nat)
  | halving (constant : Nat) (ratio : Rational) (epoch_start : Nat) (epoch_rate : Nat)
deriving DecidableEq

/-- PerCertificateFee (fee.rs, fields as used by the codec at config.rs
774-808): three optional NonZeroU64 fees, zero on the wire meaning absent. -/
structure PerCertificateFee where
  certificate_pool_registration : Option Nat
  certificate_stake_delegation : Option Nat
  certificate_owner_stake_delegation : Option Nat
deriving DecidableEq

/-- PerVoteCertificateFee (fee.rs, fields as used by the codec at config.rs
810-835): two optional NonZeroU64 fees. -/
structure PerVoteCertificateFee where
  certificate_vote_plan : Option Nat
  certificate_vote_cast : Option Nat
deriving DecidableEq

/-- PerCertificateFee::default(): all fees absent. -/
def perCertificateFeeDefault : PerCertificateFee := ⟨none, none, none⟩

/-- PerVoteCertificateFee::default(): all fees absent. -/
def perVoteCertificateFeeDefault : PerVoteCertificateFee := ⟨none, none⟩

/-- LinearFee (fee.rs, fields as constructed by the decoder at config.rs
760-772): three u64 components plus the two per-certificate fee blocks that
the config payload does not carry; the decoder resets them to default. -/
structure LinearFee where
  constant : Nat
  coefficient : Nat
  certificate : Nat
  per_certificate_fees : PerCertificateFee
  per_vote_certificate_fees : PerVoteCertificateFee
deriving DecidableEq

/-- NonZeroU64::new / NonZeroU32::new: zero becomes absent. -/
def nzNew (v : Nat) : Option Nat := if v = 0 then none else some v

/-! ### Per-variant payload encoders and decoders (ConfigParamVariant) -/

/-- u64 to_payload (config.rs lines 698-701). -/
def u64ToPayload (n : Nat) : List Nat := beBytes 8 n

/-- u64 from_payload (config.rs lines 703-710). -/
def u64FromPayload (p : List Nat) : Except CfgError Nat :=
  if p.length = 8 then .ok (beVal p) else .error .sizeInvalid

/-- u32 to_payload (config.rs lines 713-716). -/
def u32ToPayload (n : Nat) : List Nat := beBytes 4 n

/-- u32 from_payload (config.rs lines 718-725). -/
def u32FromPayload (p : List Nat) : Except CfgError Nat :=
  if p.length = 4 then .ok (beVal p) else .error .sizeInvalid

/-- u8 to_payload (config.rs lines 685-687). -/
def u8ToPayload (n : Nat) : List Nat := [n]

/-- u8 from_payload (config.rs lines 690-695). -/
def u8FromPayload (p : List Nat) : Except CfgError Nat :=
  match p with
  | [b] => .ok b
  | _ => .error .sizeInvalid

/-- bool to_payload (config.rs lines 669-671). -/
def boolToPayload (b : Bool) : List Nat := [if b then 1 else 0]

/-- bool from_payload (config.rs lines 673-682). -/
def boolFromPayload (p : List Nat) : Except CfgError Bool :=
  match p with
  | [0] => .ok false
  | [1] => .ok true
  | [_] => .error .boolInvalid
  | _ => .error .sizeInvalid

/-- Discrimination to_payload (config.rs lines 621-626). -/
def discriminationToPayload : Discrimination → List Nat
  | .production => [1]
  | .test => [2]

/-- Discrimination from_payload (config.rs lines 628-637). -/
def discriminationFromPayload (p : List Nat) : Except CfgError Discrimination :=
  if p.length ≠ 1 then .error .sizeInvalid
  else match p with
    | [1] => .ok .production
    | [2] => .ok .test
    | _ => .error .structureInvalid

/-- ConsensusType to_payload (config.rs lines 641-643). -/
def consensusTypeToPayload (c : ConsensusType) : List Nat := beBytes 2 c.toU16

/-- ConsensusType from_payload (config.rs lines 645-653). -/
def consensusTypeFromPayload (p : List Nat) : Except CfgError ConsensusType :=
  if p.length = 2 then
    match ConsensusType.from_u16 (beVal p) with
    | some c => .ok c
    | none => .error .structureInvalid
  else .error .sizeInvalid

/-- BftLeaderId to_payload (config.rs lines 657-659). -/
def bftLeaderIdToPayload (k : BftLeaderId) : List Nat := k.bytes

/-- BftLeaderId from_payload (config.rs lines 661-665); key parse failure is
SizeInvalid. -/
def bftLeaderIdFromPayload (p : List Nat) : Except CfgError BftLeaderId :=
  if p.length = 32 then .ok ⟨p⟩ else .error .sizeInvalid

/-- CommitteeId to_payload (config.rs lines 838-840). -/
def committeeIdToPayload (c : CommitteeId) : List Nat := c.bytes

/-- CommitteeId from_payload (config.rs lines 842-845). -/
def committeeIdFromPayload (p : List Nat) : Except CfgError CommitteeId :=
  if p.length = 32 then .ok ⟨p⟩
  else .error (.unknownString ("could not convert slice to array"))

/-- Ratio to_payload (config.rs lines 516-521). -/
def rationalToPayload (r : Rational) : List Nat :=
  beBytes 8 r.numerator ++ beBytes 8 r.denominator

/-- Ratio from_payload (config.rs lines 523-532). -/
def rationalFromPayload (p : List Nat) : Except CfgError Rational := do
  let (num, r1) ← rbU64 p
  let (denom, r2) ← rbNzU64 r1
  let _ ← rbEnd r2
  .ok ⟨num, denom⟩

/-- TaxType to_payload (config.rs lines 503-505; layout modelled from the
spec, see the TaxType comment). -/
def taxTypeToPayload (t : TaxType) : List Nat :=
  beBytes 8 t.fixed ++ beBytes 8 t.ratio.numerator ++ beBytes 8 t.ratio.denominator
    ++ beBytes 8 (t.max_limit.getD 0)

/-- TaxType from_payload (config.rs lines 507-512; layout modelled from the
spec, see the TaxType comment). read_frombuf then expect_end. -/
def taxTypeFromPayload (p : List Nat) : Except CfgError TaxType := do
  let (fixed, r1) ← rbU64 p
  let (num, r2) ← rbU64 r1
  let (denom, r3) ← rbNzU64 r2
  let (lim, r4) ← rbU64 r3
  let _ ← rbEnd r4
  .ok ⟨fixed, ⟨num, denom⟩, nzNew lim⟩

/-- RewardParams to_payload (config.rs lines 535-563). -/
def rewardParamsToPayload : RewardParams → List Nat
  | .linear c r es er =>
      1 :: (beBytes 8 c ++ beBytes 8 r.numerator ++ beBytes 8 r.denominator
        ++ beBytes 4 es ++ beBytes 4 er)
  | .halving c r es er =>
      2 :: (beBytes 8 c ++ beBytes 8 r.numerator ++ beBytes 8 r.denominator
        ++ beBytes 4 es ++ beBytes 4 er)

/-- RewardParams from_payload (config.rs lines 565-604). -/
def rewardParamsFromPayload (p : List Nat) : Except CfgError RewardParams := do
  let (k, r0) ← rbU8 p
  match k with
  | 1 => do
    let (c, r1) ← rbU64 r0
    let (num, r2) ← rbU64 r1
    let (denom, r3) ← rbNzU64 r2
    let (es, r4) ← rbU32 r3
    let (er, r5) ← rbNzU32 r4
    let _ ← rbEnd r5
    .ok (.linear c ⟨num, denom⟩ es er)
  | 2 => do
    let (c, r1) ← rbU64 r0
    let (num, r2) ← rbU64 r1
    let (denom, r3) ← rbNzU64 r2
    let (es, r4) ← rbU32 r3
    let (er, r5) ← rbNzU32 r4
    let _ ← rbEnd r5
    .ok (.halving c ⟨num, denom⟩ es er)
  | _ => .error .invalidTag

/-- LinearFee to_payload (config.rs lines 753-758): only the three u64
components are written. -/
def linearFeeToPayload (f : LinearFee) : List Nat :=
  beBytes 8 f.constant ++ beBytes 8 f.coefficient ++ beBytes 8 f.certificate

/-- LinearFee from_payload (config.rs lines 760-771): exactly 24 bytes; the
per-certificate blocks are reset to their defaults. -/
def linearFeeFromPayload (p : List Nat) : Except CfgError LinearFee :=
  if p.length = 3 * 8 then do
    let c ← u64FromPayload (p.take 8)
    let co ← u64FromPayload ((p.drop 8).take 8)
    let ce ← u64FromPayload ((p.drop 16).take 8)
    .ok ⟨c, co, ce, perCertificateFeeDefault, perVoteCertificateFeeDefault⟩
  else .error .sizeInvalid

/-- PerCertificateFee to_payload (config.rs lines 775-794): absent fees are
written as zero. -/
def perCertificateFeeToPayload (f : PerCertificateFee) : List Nat :=
  beBytes 8 (f.certificate_pool_registration.getD 0)
    ++ beBytes 8 (f.certificate_stake_delegation.getD 0)
    ++ beBytes 8 (f.certificate_owner_stake_delegation.getD 0)

/-- PerCertificateFee from_payload (config.rs lines 796-807). -/
def perCertificateFeeFromPayload (p : List Nat) : Except CfgError PerCertificateFee :=
  if p.length = 3 * 8 then do
    let a ← u64FromPayload (p.take 8)
    let b ← u64FromPayload ((p.drop 8).take 8)
    let c ← u64FromPayload ((p.drop 16).take 8)
    .ok ⟨nzNew a, nzNew b, nzNew c⟩
  else .error .sizeInvalid

/-- PerVoteCertificateFee to_payload (config.rs lines 811-823). -/
def perVoteCertificateFeeToPayload (f : PerVoteCertificateFee) : List Nat :=
  beBytes 8 (f.certificate_vote_plan.getD 0)
    ++ beBytes 8 (f.certificate_vote_cast.getD 0)

/-- PerVoteCertificateFee from_payload (config.rs lines 826-833). -/
def perVoteCertificateFeeFromPayload (p : List Nat) : Except CfgError PerVoteCertificateFee :=
  if p.length = 2 * 8 then do
    let a ← u64FromPayload (p.take 8)
    let b ← u64FromPayload ((p.drop 8).take 8)
    .ok ⟨nzNew a, nzNew b⟩
  else .error .sizeInvalid

/-- (NonZeroU32, NonZeroU32) to_payload (config.rs lines 729-731). -/
def nzPairToPayload (a b : Nat) : List Nat := beBytes 4 a ++ beBytes 4 b

/-- (NonZeroU32, NonZeroU32) from_payload (config.rs lines 734-739): two
nonzero u32 reads, no expect_end. -/
def nzPairFromPayload (p : List Nat) : Except CfgError (Nat × Nat) := do
  let (x, r1) ← rbNzU32 p
  let (y, _) ← rbNzU32 r1
  .ok (x, y)

/-! ### ConfigParam itself -/

/-- ConfigParam (config.rs lines 64-94), without the feature-gated EvmParams
variant. -/
inductive ConfigParam
  | block0Date (d : Block0Date)
  | discrimination (d : Discrimination)
  | consensusVersion (c : ConsensusType)
  | slotsPerEpoch (n : Nat)
  | slotDuration (n : Nat)
  | epochStabilityDepth (n : Nat)
  | consensusGenesisPraosActiveSlotsCoeff (m : Milli)
  | blockContentMaxSize (n : Nat)
  | addBftLeader (k : BftLeaderId)
  | removeBftLeader (k : BftLeaderId)
  | linearFee (f : LinearFee)
  | proposalExpiration (n : Nat)
  | kesUpdateSpeed (n : Nat)
  | treasuryAdd (v : Value)
  | treasuryParams (t : TaxType)
  | rewardPot (v : Value)
  | rewardParams (r : RewardParams)
  | perCertificateFees (f : PerCertificateFee)
  | feesInTreasury (b : Bool)
  | rewardLimitNone
  | rewardLimitByAbsoluteStake (r : Rational)
  | poolRewardParticipationCapping (a b : Nat)
  | addCommitteeId (c : CommitteeId)
  | removeCommitteeId (c : CommitteeId)
  | perVoteCertificateFees (f : PerVoteCertificateFee)
  | transactionMaxExpiryEpochs (n : Nat)
deriving DecidableEq

/-- Tag of a ConfigParam (impl From for Tag, config.rs lines 286-321). -/
def ConfigParam.tag : ConfigParam → Tag
  | .block0Date _ => .block0Date
  | .discrimination _ => .discrimination
  | .consensusVersion _ => .consensusVersion
  | .slotsPerEpoch _ => .slotsPerEpoch
  | .slotDuration _ => .slotDuration
  | .epochStabilityDepth _ => .epochStabilityDepth
  | .consensusGenesisPraosActiveSlotsCoeff _ => .consensusGenesisPraosActiveSlotsCoeff
  | .blockContentMaxSize _ => .blockContentMaxSize
  | .addBftLeader _ => .addBftLeader
  | .removeBftLeader _ => .removeBftLeader
  | .linearFee _ => .linearFee
  | .proposalExpiration _ => .proposalExpiration
  | .kesUpdateSpeed _ => .kesUpdateSpeed
  | .treasuryAdd _ => .treasuryAdd
  | .treasuryParams _ => .treasuryParams
  | .rewardPot _ => .rewardPot
  | .rewardParams _ => .rewardParams
  | .perCertificateFees _ => .perCertificateFees
  | .feesInTreasury _ => .feesInTreasury
  | .rewardLimitNone => .rewardLimitNone
  | .rewardLimitByAbsoluteStake _ => .rewardLimitByAbsoluteStake
  | .poolRewardParticipationCapping _ _ => .poolRewardParticipationCapping
  | .addCommitteeId _ => .addCommitteeId
  | .removeCommitteeId _ => .removeCommitteeId
  | .perVoteCertificateFees _ => .perVoteCertificateFees
  | .transactionMaxExpiryEpochs _ => .transactionMaxExpiryEpochs

/-- Payload bytes of a ConfigParam (the match of impl Serialize, config.rs
lines 414-443). -/
def ConfigParam.to_payload : ConfigParam → List Nat
  | .block0Date d => u64ToPayload d.v
  | .discrimination d => discriminationToPayload d
  | .consensusVersion c => consensusTypeToPayload c
  | .slotsPerEpoch n => u32ToPayload n
  | .slotDuration n => u8ToPayload n
  | .epochStabilityDepth n => u32ToPayload n
  | .consensusGenesisPraosActiveSlotsCoeff m => u64ToPayload m.millis
  | .blockContentMaxSize n => u32ToPayload n
  | .addBftLeader k => bftLeaderIdToPayload k
  | .removeBftLeader k => bftLeaderIdToPayload k
  | .linearFee f => linearFeeToPayload f
  | .proposalExpiration n => u32ToPayload n
  | .kesUpdateSpeed n => u32ToPayload n
  | .treasuryAdd v => u64ToPayload v.val
  | .treasuryParams t => taxTypeToPayload t
  | .rewardPot v => u64ToPayload v.val
  | .rewardParams r => rewardParamsToPayload r
  | .perCertificateFees f => perCertificateFeeToPayload f
  | .feesInTreasury b => boolToPayload b
  | .rewardLimitNone => []
  | .rewardLimitByAbsoluteStake r => rationalToPayload r
  | .poolRewardParticipationCapping a b => nzPairToPayload a b
  | .addCommitteeId c => committeeIdToPayload c
  | .removeCommitteeId c => committeeIdToPayload c
  | .perVoteCertificateFees f => perVoteCertificateFeeToPayload f
  | .transactionMaxExpiryEpochs n => u8ToPayload n

/-- Dispatch of impl Readable for ConfigParam (config.rs lines 327-404):
per-tag decoding of the already-extracted payload bytes. RewardLimitNone is
the single zero-payload variant and requires an exactly empty payload. -/
def configParamReadBody (t : Tag) (bytes : List Nat) : Except CfgError ConfigParam :=
  match t with
  | .block0Date => (u64FromPayload bytes).map fun v => .block0Date ⟨v⟩
  | .discrimination => (discriminationFromPayload bytes).map ConfigParam.discrimination
  | .consensusVersion => (consensusTypeFromPayload bytes).map ConfigParam.consensusVersion
  | .slotsPerEpoch => (u32FromPayload bytes).map ConfigParam.slotsPerEpoch
  | .slotDuration => (u8FromPayload bytes).map ConfigParam.slotDuration
  | .epochStabilityDepth => (u32FromPayload bytes).map ConfigParam.epochStabilityDepth
  | .consensusGenesisPraosActiveSlotsCoeff =>
      (u64FromPayload bytes).map fun v => .consensusGenesisPraosActiveSlotsCoeff ⟨v⟩
  | .blockContentMaxSize => (u32FromPayload bytes).map ConfigParam.blockContentMaxSize
  | .addBftLeader => (bftLeaderIdFromPayload bytes).map ConfigParam.addBftLeader
  | .removeBftLeader => (bftLeaderIdFromPayload bytes).map ConfigParam.removeBftLeader
  | .linearFee => (linearFeeFromPayload bytes).map ConfigParam.linearFee
  | .proposalExpiration => (u32FromPayload bytes).map ConfigParam.proposalExpiration
  | .kesUpdateSpeed => (u32FromPayload bytes).map ConfigParam.kesUpdateSpeed
  | .treasuryAdd => (u64FromPayload bytes).map fun v => .treasuryAdd ⟨v⟩
  | .treasuryParams => (taxTypeFromPayload bytes).map ConfigParam.treasuryParams
  | .rewardPot => (u64FromPayload bytes).map fun v => .rewardPot ⟨v⟩
  | .rewardParams => (rewardParamsFromPayload bytes).map ConfigParam.rewardParams
  | .perCertificateFees => (perCertificateFeeFromPayload bytes).map ConfigParam.perCertificateFees
  | .feesInTreasury => (boolFromPayload bytes).map ConfigParam.feesInTreasury
  | .rewardLimitNone =>
      if bytes.isEmpty then .ok .rewardLimitNone else .error .sizeInvalid
  | .rewardLimitByAbsoluteStake =>
      (rationalFromPayload bytes).map ConfigParam.rewardLimitByAbsoluteStake
  | .poolRewardParticipationCapping =>
      (nzPairFromPayload bytes).map fun x => .poolRewardParticipationCapping x.1 x.2
  | .addCommitteeId => (committeeIdFromPayload bytes).map ConfigParam.addCommitteeId
  | .removeCommitteeId => (committeeIdFromPayload bytes).map ConfigParam.removeCommitteeId
  | .perVoteCertificateFees =>
      (perVoteCertificateFeeFromPayload bytes).map ConfigParam.perVoteCertificateFees
  | .transactionMaxExpiryEpochs =>
      (u8FromPayload bytes).map ConfigParam.transactionMaxExpiryEpochs

/-- Errors of the outer Readable decoder: ReadError of chain-core mempack
(modelled from the spec, section 7); codec errors convert into
StructureInvalid carrying their display message (config.rs lines 58-62). -/
inductive RdError
  | notEnoughBytes
  | structureInvalid (msg : String)
deriving DecidableEq

/-- get_u16 and get_slice on the outer ReadBuf. -/
def rdSlice (n : Nat) (p : List Nat) : Except RdError (List Nat × List Nat) :=
  if n ≤ p.length then .ok (p.take n, p.drop n) else .error .notEnoughBytes

/-- impl Serialize for ConfigParam (config.rs lines 409-454): pack the tag
and payload length into a TagLen, write it as a big-endian u16, then the
payload; a payload of 64 bytes or more is an error. -/
def ConfigParam.serialize (p : ConfigParam) : Except String (List Nat) :=
  match TagLen.new p.tag p.to_payload.length with
  | none => .error ("initial ent payload too big")
  | some tl => .ok (beBytes 2 tl.val ++ p.to_payload)

/-- impl Readable for ConfigParam (config.rs lines 323-407): read the u16
TagLen, read exactly get_len payload bytes, then dispatch on get_tag. -/
def ConfigParam.read (input : List Nat) : Except RdError (ConfigParam × List Nat) := do
  let (tlb, r1) ← rdSlice 2 input
  let tl : TagLen := ⟨beVal tlb⟩
  let (bytes, r2) ← rdSlice tl.get_len r1
  match tl.get_tag with
  | .error e => .error (.structureInvalid e.message)
  | .ok t =>
    match configParamReadBody t bytes with
    | .ok cp => .ok (cp, r2)
    | .error e => .error (.structureInvalid e.message)

/-- ConfigParams (fragment/config.rs line 6). -/
structure ConfigParams where
  params : List ConfigParam
deriving DecidableEq

/-- Serialization of the members of a ConfigParams in order, propagating the
first failure (fragment/config.rs lines 29-31). -/
def serializeParamsList : List ConfigParam → Except String (List Nat)
  | [] => .ok []
  | p :: rest => do
    let b ← p.serialize
    let bs ← serializeParamsList rest
    .ok (b ++ bs)

/-- impl Serialize for ConfigParams (fragment/config.rs lines 22-34): a u16
count followed by each member; the usize count is cast to u16. -/
def ConfigParams.serialize (ps : ConfigParams) : Except String (List Nat) := do
  let body ← serializeParamsList ps.params
  .ok (beBytes 2 (ps.params.length % 2 ^ 16) ++ body)

/-- The count-driven decode loop of impl Readable for ConfigParams
(fragment/config.rs lines 40-43). -/
def readParamsN : Nat → List Nat → Except RdError (List ConfigParam × List Nat)
  | 0, input => .ok ([], input)
  | n + 1, input => do
    let (p, r1) ← ConfigParam.read input
    let (rest, r2) ← readParamsN n r1
    .ok (p :: rest, r2)

/-- impl Readable for ConfigParams (fragment/config.rs lines 36-46). -/
def ConfigParams.read (input : List Nat) : Except RdError (ConfigParams × List Nat) := do
  let (cb, r1) ← rdSlice 2 input
  let (ps, r2) ← readParamsN (beVal cb) r1
  .ok (⟨ps⟩, r2)

/-- Consistency of an optional NonZeroU64 or NonZeroU32 field: absent, or a
nonzero value inside the word range. -/
def nzWf (bound : Nat) : Option Nat → Bool
  | none => true
  | some v => decide (v ≠ 0 ∧ v < bound)

/-- Byte lists representing fixed 32-byte keys or identifiers. -/
def bytes32Wf (l : List Nat) : Bool :=
  decide (l.length = 32) && l.all fun b => decide (b < 256)

/-- Well-formedness of a ConfigParam: every component inhabits the range of
its machine type (u8, u32, u64, NonZeroU32, NonZeroU64, fixed byte arrays).
Every value of the Rust ConfigParam type satisfies this; it is spelled out
here because the embedding carries unbounded naturals. -/
def ConfigParam.wfb : ConfigParam → Bool
  | .block0Date d => decide (d.v < 2 ^ 64)
  | .discrimination _ => true
  | .consensusVersion _ => true
  | .slotsPerEpoch n => decide (n < 2 ^ 32)
  | .slotDuration n => decide (n < 2 ^ 8)
  | .epochStabilityDepth n => decide (n < 2 ^ 32)
  | .consensusGenesisPraosActiveSlotsCoeff m => decide (m.millis < 2 ^ 64)
  | .blockContentMaxSize n => decide (n < 2 ^ 32)
  | .addBftLeader k => bytes32Wf k.bytes
  | .removeBftLeader k => bytes32Wf k.bytes
  | .linearFee f =>
      decide (f.constant < 2 ^ 64) && decide (f.coefficient < 2 ^ 64)
        && decide (f.certificate < 2 ^ 64)
        && nzWf (2 ^ 64) f.per_certificate_fees.certificate_pool_registration
        && nzWf (2 ^ 64) f.per_certificate_fees.certificate_stake_delegation
        && nzWf (2 ^ 64) f.per_certificate_fees.certificate_owner_stake_delegation
        && nzWf (2 ^ 64) f.per_vote_certificate_fees.certificate_vote_plan
        && nzWf (2 ^ 64) f.per_vote_certificate_fees.certificate_vote_cast
  | .proposalExpiration n => decide (n < 2 ^ 32)
  | .kesUpdateSpeed n => decide (n < 2 ^ 32)
  | .treasuryAdd v => decide (v.val < 2 ^ 64)
  | .treasuryParams t =>
      decide (t.fixed < 2 ^ 64) && decide (t.ratio.numerator < 2 ^ 64)
        && decide (t.ratio.denominator ≠ 0 ∧ t.ratio.denominator < 2 ^ 64)
        && nzWf (2 ^ 64) t.max_limit
  | .rewardPot v => decide (v.val < 2 ^ 64)
  | .rewardParams (.linear c r es er) =>
      decide (c < 2 ^ 64) && decide (r.numerator < 2 ^ 64)
        && decide (r.denominator ≠ 0 ∧ r.denominator < 2 ^ 64)
        && decide (es < 2 ^ 32) && decide (er ≠ 0 ∧ er < 2 ^ 32)
  | .rewardParams (.halving c r es er) =>
      decide (c < 2 ^ 64) && decide (r.numerator < 2 ^ 64)
        && decide (r.denominator ≠ 0 ∧ r.denominator < 2 ^ 64)
        && decide (es < 2 ^ 32) && decide (er ≠ 0 ∧ er < 2 ^ 32)
  | .perCertificateFees f =>
      nzWf (2 ^ 64) f.certificate_pool_registration
        && nzWf (2 ^ 64) f.certificate_stake_delegation
        && nzWf (2 ^ 64) f.certificate_owner_stake_delegation
  | .feesInTreasury _ => true
  | .rewardLimitNone => true
  | .rewardLimitByAbsoluteStake r =>
      decide (r.numerator < 2 ^ 64)
        && decide (r.denominator ≠ 0 ∧ r.denominator < 2 ^ 64)
  | .poolRewardParticipationCapping a b =>
      decide (a ≠ 0 ∧ a < 2 ^ 32) && decide (b ≠ 0 ∧ b < 2 ^ 32)
  | .addCommitteeId c => bytes32Wf c.bytes
  | .removeCommitteeId c => bytes32Wf c.bytes
  | .perVoteCertificateFees f =>
      nzWf (2 ^ 64) f.certificate_vote_plan && nzWf (2 ^ 64) f.certificate_vote_cast
  | .transactionMaxExpiryEpochs n => decide (n < 2 ^ 8)

/-- Whether a ConfigParam avoids the lossy corner of the LinearFee payload:
the two per-certificate fee blocks carried by LinearFee but never written by
its config payload are at their defaults. -/
def ConfigParam.defaulted : ConfigParam → Bool
  | .linearFee f =>
      decide (f.per_certificate_fees = perCertificateFeeDefault)
        && decide (f.per_vote_certificate_fees = perVoteCertificateFeeDefault)
  | _ => true

/-! ## Fragment and block framing (chain-impl-mockchain src/block/mod.rs and
src/fragment/raw.rs) -/

/-- Errors of the chain-core property deserializers as used by the block
path: short reads from the codec, StructureInvalid and InvalidData. -/
inductive ReadErr
  | ioError
  | structureInvalid (msg : String)
  | invalidData (msg : String)
deriving DecidableEq

/-- Codec::get_u32 / read_exact on a byte stream: a short read is a fatal
error (chain-ser packer.rs lines 30-53). -/
def ioSlice (n : Nat) (l : List Nat) : Except ReadErr (List Nat × List Nat) :=
  if n ≤ l.length then .ok (l.take n, l.drop n) else .error .ioError

/-- impl Serialize for FragmentRaw (fragment/raw.rs lines 38-48): a u32
length (usize cast to u32) followed by the payload bytes. -/
def fragmentFrame (payload : List Nat) : List Nat :=
  beBytes 4 (payload.length % 2 ^ 32) ++ payload

/-- FragmentRaw::size_bytes_plus_size (fragment/raw.rs lines 11-13). -/
def framedSize (payload : List Nat) : Nat := 4 + payload.length

/-- impl Deserialize for FragmentRaw (fragment/raw.rs lines 26-36): read the
u32 size, then exactly that many bytes. -/
def fragmentRawDeserialize (input : List Nat) :
    Except ReadErr (List Nat × List Nat) := do
  let (szb, r1) ← ioSlice 4 input
  let (payload, r2) ← ioSlice (beVal szb) r1
  .ok (payload, r2)

/-- The message of the content-size structural error (block/mod.rs lines
126-129; the source formats the fragment size into the first hole and the
remaining size into the second, reproduced as written). -/
def fragmentSizeMsg (msize remaining : Nat) : String :=
  toString msize ++ " bytes remaining according to the header but got a fragment of size "
    ++ toString remaining

/-- The fragment loop of impl Deserialize for Block (block/mod.rs lines
121-137): deserialize framed fragments while the declared remaining content
size is positive, rejecting a fragment whose framed size exceeds it.
Fragment::from_raw (fragment/mod.rs, outside the provided sources) is
modelled from the spec as retaining the raw payload bytes; its own parse
errors are not modelled, so fragments are their raw payloads. -/
def blockReadContents (remaining : Nat) (input : List Nat)
    (acc : List (List Nat)) : Except ReadErr (List (List Nat) × List Nat) :=
  if _h : remaining = 0 then .ok (acc, input)
  else
    match fragmentRawDeserialize input with
    | .error e => .error e
    | .ok (raw, rest) =>
      if 4 + raw.length > remaining then
        .error (.structureInvalid (fragmentSizeMsg (4 + raw.length) remaining))
      else blockReadContents (remaining - (4 + raw.length)) rest (acc ++ [raw])
termination_by remaining
decreasing_by omega

/-- The message of the content-hash mismatch error (block/mod.rs lines
143-147): both the recomputed and the declared hash are reported. -/
def hashMismatchMsg (computed declared : Nat) : String :=
  "Inconsistent block content hash in header: block " ++ toString computed
    ++ " header " ++ toString declared

/-- Modelled from the spec: Contents::compute_hash_size (fragment/mod.rs,
outside the provided sources) hashes the concatenated framed fragment bytes
and sums their framed sizes (spec sections 3 and 4.3); the hashing
collaborator is a parameter. -/
def contentsHashSize (hash : List Nat → Nat) (frags : List (List Nat)) : Nat × Nat :=
  (hash (frags.map fragmentFrame).flatten, (frags.map framedSize).sum)

/-- impl Deserialize for Block after the header has been read (block/mod.rs
lines 118-151): the header contributes its declared content size and content
hash (Header and HeaderRaw decoding live outside the provided sources). The
fragments are consumed against the declared size, then the recomputed
content hash is compared with the declared one. -/
def blockDeserializeBody (hash : List Nat → Nat) (content_size declared_hash : Nat)
    (input : List Nat) : Except ReadErr (List (List Nat) × List Nat) := do
  let (frags, rest) ← blockReadContents content_size input []
  let content_hash := (contentsHashSize hash frags).1
  if declared_hash ≠ content_hash then
    .error (.invalidData (hashMismatchMsg content_hash declared_hash))
  else .ok (frags, rest)

/-! ## Ledger snapshot stream (chain-impl-mockchain src/ledger/recovery.rs) -/

/-- EntrySerializeCode (recovery.rs lines 739-752). -/
inductive EntrySerializeCode
  | globals
  | pot
  | utxo
  | oldUtxo
  | account
  | configParam
  | updateProposal
  | multisigAccount
  | multisigDeclaration
  | stakePool
  | leaderParticipation
  | serializationEnd
deriving DecidableEq

/-- The `code as u8` cast of EntrySerializeCode (discriminants at recovery.rs
lines 740-751). -/
def EntrySerializeCode.toU8 : EntrySerializeCode → Nat
  | .globals => 0
  | .pot => 1
  | .utxo => 2
  | .oldUtxo => 3
  | .account => 4
  | .configParam => 5
  | .updateProposal => 6
  | .multisigAccount => 7
  | .multisigDeclaration => 8
  | .stakePool => 9
  | .leaderParticipation => 10
  | .serializationEnd => 11

/-- EntrySerializeCode::from_u8 (recovery.rs lines 755-771); the source is a
sequential match on the twelve literal codes with a default arm, written
here as the equivalent chain of equality tests. -/
def EntrySerializeCode.from_u8 (n : Nat) : Option EntrySerializeCode :=
  if n = 0 then some .globals
  else if n = 1 then some .pot
  else if n = 2 then some .utxo
  else if n = 3 then some .oldUtxo
  else if n = 4 then some .account
  else if n = 5 then some .configParam
  else if n = 6 then some .updateProposal
  else if n = 7 then some .multisigAccount
  else if n = 8 then some .multisigDeclaration
  else if n = 9 then some .stakePool
  else if n = 10 then some .leaderParticipation
  else if n = 11 then some .serializationEnd
  else none

/-- Errors of the snapshot decoders: std io errors of kind InvalidData with
their message, and short reads. -/
inductive RecErr
  | shortRead
  | invalidData (msg : String)
deriving DecidableEq

/-- EntryOwned (ledger/iter.rs, outside the provided sources) reduced to its
framing: a non-terminal entry is its code together with its decoded body,
and StopEntry terminates the stream. The body type is a parameter because
the eleven per-kind body types (globals, pots, utxo, accounts, config,
update proposals, multisig, stake pools, leader participation) live outside
the provided sources; their codecs enter as parameters below. -/
inductive EntryOwnedG (B : Type)
  | entry (code : EntrySerializeCode) (body : B)
  | stopEntry
deriving DecidableEq

/-- unpack_entry_owned (recovery.rs lines 833-883): read one code byte, fail
with an InvalidData error naming the code when from_u8 rejects it, stop on
SerializationEnd, and otherwise dispatch to the decoder of the matching
kind (the unpack helpers of recovery.rs, abstracted as the dec parameter). -/
def unpack_entry_owned {B : Type}
    (dec : EntrySerializeCode → List Nat → Except RecErr (B × List Nat))
    (input : List Nat) : Except RecErr (EntryOwnedG B × List Nat) :=
  match input with
  | [] => .error .shortRead
  | b :: rest =>
    match EntrySerializeCode.from_u8 b with
    | none =>
        .error (.invalidData ("Error reading Entry, not recognized type code " ++ toString b))
    | some .serializationEnd => .ok (.stopEntry, rest)
    | some code => (dec code rest).map fun x => (.entry code x.1, x.2)

/-- impl Serialize for Ledger (recovery.rs lines 885-897) composed with
pack_entry (lines 774-831): for every entry of the ledger iteration, write
its one-byte code then its body encoding (the pack helpers of recovery.rs,
abstracted as the enc parameter), and finish with the SerializationEnd
code. -/
def ledger_serialize {B : Type} (enc : EntrySerializeCode → B → List Nat) :
    List (EntrySerializeCode × B) → List Nat
  | [] => [EntrySerializeCode.serializationEnd.toU8]
  | e :: es => (e.1.toU8 :: enc e.1 e.2) ++ ledger_serialize enc es

/-! ## Shared helper lemmas -/

theorem stake_foldl_add (l : List Stake) (a : Stake) (ha : a.val < 2 ^ 64) :
    l.foldl Stake.add a = ⟨(a.val + (l.map Stake.val).sum) % 2 ^ 64⟩ := by
  induction l generalizing a with
  | nil =>
    cases a
    simp only [List.foldl_nil, List.map_nil, List.sum_nil, Nat.add_zero, Stake.mk.injEq]
    exact (Nat.mod_eq_of_lt ha).symm
  | cons x xs ih =>
    have hmod : (a.val + x.val) % 2 ^ 64 < 2 ^ 64 := Nat.mod_lt _ (by norm_num)
    simp only [List.foldl_cons]
    rw [ih (Stake.add a x) hmod]
    simp only [Stake.add, List.map_cons, List.sum_cons]
    congr 1
    rw [Nat.mod_add_mod]
    ring_nf

theorem scale_pos : 0 < SCALE := by norm_num [SCALE]

theorem scale_lt_u64 : SCALE < 2 ^ 64 := by norm_num [SCALE]

/-! ## Claim theorems -/

/-- Claim C1, counterexample: with total = stake = 3 the value 7 scales to 6,
not 7, because 7 * 10 to the 18 is not divisible by 3 and the truncated
fixed-point quotient loses one unit; so the boundary identity of the claim
fails at a positive total. -/
theorem c1_counterexample :
    (0 : Nat) < 3 ∧
    PercentStake.new ⟨3⟩ ⟨3⟩ = some ⟨⟨3⟩, ⟨3⟩⟩ ∧
    PercentStake.scale_value ⟨⟨3⟩, ⟨3⟩⟩ ⟨7⟩ = some ⟨6⟩ ∧
    (6 : Nat) ≠ 7 := by
  refine ⟨by norm_num, by decide, by decide, by norm_num⟩

/-- Claim C1 (amended): for total greater than zero,
PercentStake::new(total, total).scale_value(v) returns v exactly when total
divides v times the 10 to the 18 scale factor (and otherwise a strictly
smaller value, as the counterexample shows); and
PercentStake::new(Stake(0), total).scale_value(v) is always Value(0). The
computation uses the 128-bit intermediate with the fixed-point scale applied
before the division by total and removed after the multiplication by stake. -/
theorem c1_percentstake_boundary_amended (total v : Nat) (ht : 0 < total)
    (_ht64 : total < 2 ^ 64) (hv : v < 2 ^ 64) :
    PercentStake.new ⟨total⟩ ⟨total⟩ = some ⟨⟨total⟩, ⟨total⟩⟩ ∧
    (PercentStake.scale_value ⟨⟨total⟩, ⟨total⟩⟩ ⟨v⟩ = some ⟨v⟩ ↔ total ∣ v * SCALE) ∧
    PercentStake.new ⟨0⟩ ⟨total⟩ = some ⟨⟨0⟩, ⟨total⟩⟩ ∧
    PercentStake.scale_value ⟨⟨0⟩, ⟨total⟩⟩ ⟨v⟩ = some ⟨0⟩ := by
  have htne : total ≠ 0 := Nat.pos_iff_ne_zero.mp ht
  have hvs : v * SCALE < 2 ^ 128 := by
    calc v * SCALE < 2 ^ 64 * 2 ^ 64 :=
          Nat.mul_lt_mul_of_lt_of_lt hv scale_lt_u64
    _ = 2 ^ 128 := by norm_num
  have hmod1 : v * SCALE % 2 ^ 128 = v * SCALE := Nat.mod_eq_of_lt hvs
  refine ⟨by simp [PercentStake.new], ?_, by simp [PercentStake.new], ?_⟩
  · -- the stake = total branch
    have hsdt : v * SCALE / total * total ≤ v * SCALE := Nat.div_mul_le_self _ _
    have hmod2 : v * SCALE / total * total % 2 ^ 128 = v * SCALE / total * total :=
      Nat.mod_eq_of_lt (Nat.lt_of_le_of_lt hsdt hvs)
    have hkey : v * SCALE / total * total = v * SCALE - v * SCALE % total := by
      have h := Nat.div_add_mod (v * SCALE) total
      rw [Nat.mul_comm (v * SCALE / total) total]
      omega
    have hr0le : v * SCALE / total * total / SCALE ≤ v := by
      calc v * SCALE / total * total / SCALE ≤ v * SCALE / SCALE :=
            Nat.div_le_div_right hsdt
      _ = v := Nat.mul_div_cancel v scale_pos
    have hr0lt : v * SCALE / total * total / SCALE < 2 ^ 64 := lt_of_le_of_lt hr0le hv
    have heval : PercentStake.scale_value ⟨⟨total⟩, ⟨total⟩⟩ ⟨v⟩ =
        some ⟨v * SCALE / total * total / SCALE⟩ := by
      simp only [PercentStake.scale_value, if_neg htne]
      rw [hmod1, hmod2, Nat.mod_eq_of_lt hr0lt]
    rw [heval]
    simp only [Option.some.injEq, Value.mk.injEq]
    constructor
    · intro hr
      by_contra hnd
      have hm : v * SCALE % total ≠ 0 := fun h0 =>
        hnd (Nat.dvd_iff_mod_eq_zero.mpr h0)
      have hmle : v * SCALE % total ≤ v * SCALE := Nat.mod_le _ _
      have : v * SCALE / total * total / SCALE < v := by
        rw [hkey]
        rw [Nat.div_lt_iff_lt_mul scale_pos]
        omega
      omega
    · intro hd
      have hm0 : v * SCALE % total = 0 := Nat.dvd_iff_mod_eq_zero.mp hd
      rw [hkey, hm0, Nat.sub_zero, Nat.mul_div_cancel v scale_pos]
  · -- the stake = 0 branch
    simp [PercentStake.scale_value, if_neg htne]

/-- Claim C1 witness for the amended statement at total = 2, v = 5. -/
theorem c1_witness :
    PercentStake.scale_value ⟨⟨2⟩, ⟨2⟩⟩ ⟨5⟩ = some ⟨5⟩ ∧
    PercentStake.scale_value ⟨⟨0⟩, ⟨2⟩⟩ ⟨5⟩ = some ⟨0⟩ := by
  have h := c1_percentstake_boundary_amended 2 5 (by norm_num) (by norm_num) (by norm_num)
  exact ⟨h.2.1.mpr (by decide), h.2.2.2⟩

/-- Claim C2, counterexample: the Add operator on Stake (and Stake::sum,
which folds it) is the unchecked u64 addition; at the maximal u64 plus one
it produces the wrapped magnitude zero instead of reporting an overflow
condition, while the mathematical sum is two to the 64. -/
theorem c2_counterexample :
    Stake.add ⟨2 ^ 64 - 1⟩ ⟨1⟩ = ⟨0⟩ ∧
    Stake.sum [⟨2 ^ 64 - 1⟩, ⟨1⟩] = ⟨0⟩ ∧
    (2 ^ 64 - 1) + 1 ≠ 0 := by
  refine ⟨by decide, by decide, by norm_num⟩

/-- Claim C2 (amended): Stake::checked_add and Stake::checked_sub are the
checked operations: they return the exact result when it fits the unsigned
64-bit range and report the overflow or underflow by returning an absent
value otherwise. The Add operator, AddAssign (the same expression), and
Stake::sum are unchecked: they reduce modulo two to the 64 and agree with
the exact sum only when it fits. -/
theorem c2_stake_checked_amended (a b : Stake) (l : List Stake) :
    (a.val + b.val < 2 ^ 64 →
      Stake.add a b = ⟨a.val + b.val⟩ ∧ Stake.checked_add a b = some ⟨a.val + b.val⟩) ∧
    (2 ^ 64 ≤ a.val + b.val →
      Stake.checked_add a b = none ∧ Stake.add a b = ⟨(a.val + b.val) % 2 ^ 64⟩) ∧
    (b.val ≤ a.val → Stake.checked_sub a b = some ⟨a.val - b.val⟩) ∧
    (a.val < b.val → Stake.checked_sub a b = none) ∧
    Stake.sum l = ⟨(l.map Stake.val).sum % 2 ^ 64⟩ ∧
    ((l.map Stake.val).sum < 2 ^ 64 → Stake.sum l = ⟨(l.map Stake.val).sum⟩) := by
  refine ⟨?_, ?_, ?_, ?_, ?_, ?_⟩
  · intro h
    constructor
    · simp only [Stake.add, Stake.mk.injEq]
      exact Nat.mod_eq_of_lt h
    · simp only [Stake.checked_add, if_pos h]
  · intro h
    exact ⟨by simp only [Stake.checked_add, if_neg (Nat.not_lt.mpr h)], rfl⟩
  · intro h
    simp [Stake.checked_sub, h]
  · intro h
    simp [Stake.checked_sub, Nat.not_le.mpr h]
  · rw [Stake.sum, stake_foldl_add l ⟨0⟩ (by norm_num)]
    norm_num
  · intro h
    rw [Stake.sum, stake_foldl_add l ⟨0⟩ (by norm_num)]
    simp only [Stake.mk.injEq, Nat.zero_add]
    exact Nat.mod_eq_of_lt h

/-- Claim C2 witness for the amended statement at 3 + 4 and the singleton
list, and at the overflowing pair. -/
theorem c2_witness :
    Stake.checked_add ⟨3⟩ ⟨4⟩ = some ⟨7⟩ ∧
    Stake.checked_add ⟨2 ^ 64 - 1⟩ ⟨1⟩ = none ∧
    Stake.sum [⟨3⟩, ⟨4⟩] = ⟨7⟩ := by
  refine ⟨?_, ?_, ?_⟩
  · exact (c2_stake_checked_amended ⟨3⟩ ⟨4⟩ []).1 (by norm_num) |>.2
  · exact ((c2_stake_checked_amended ⟨2 ^ 64 - 1⟩ ⟨1⟩ []).2.1 (by norm_num)).1
  · exact (c2_stake_checked_amended ⟨0⟩ ⟨0⟩ [⟨3⟩, ⟨4⟩]).2.2.2.2.2 (by norm_num)

/-- Claim C5: for every tag t and length l below 64, TagLen::new(t, l)
succeeds and the packed word recovers the tag and the length exactly; for
every length of 64 or more the construction fails. -/
theorem c5_taglen_bijection (t : Tag) (l : Nat) :
    (l < 64 → ∃ x, TagLen.new t l = some x ∧ x.get_tag = .ok t ∧ x.get_len = l) ∧
    (64 ≤ l → TagLen.new t l = none) := by
  constructor
  · intro h
    exact ⟨⟨64 * t.toU16 + l⟩, tagLen_new_eq t h, tagLen_get_tag_packed t h,
      tagLen_get_len_packed t h⟩
  · intro h
    simp [TagLen.new, MAXIMUM_LEN, Nat.not_lt.mpr h]

/-- Claim C5 witness at tag SlotsPerEpoch and lengths 4 and 64. -/
theorem c5_witness :
    (∃ x, TagLen.new .slotsPerEpoch 4 = some x ∧
      x.get_tag = .ok .slotsPerEpoch ∧ x.get_len = 4) ∧
    TagLen.new .slotsPerEpoch 64 = none := by
  exact ⟨(c5_taglen_bijection .slotsPerEpoch 4).1 (by norm_num),
    (c5_taglen_bijection .slotsPerEpoch 64).2 (by norm_num)⟩

/-- Claim C6: draw_reward returns the minimum of the request and the rewards
pool, leaves the pool at its prior value minus that amount and never fails;
siphon_fees returns the prior fee value and zeroes the fee pool; both leave
the other two pools untouched. -/
theorem c6_pots_draw_siphon (p : Pots) (x : Value) :
    Pots.draw_reward p x =
      some (⟨min x.val p.rewards.val⟩,
        ⟨p.fees, p.treasury, ⟨p.rewards.val - min x.val p.rewards.val⟩⟩) ∧
    Pots.siphon_fees p = (p.fees, ⟨⟨0⟩, p.treasury, p.rewards⟩) := by
  constructor
  · by_cases h : p.rewards.val ≤ x.val
    · simp [Pots.draw_reward, Value.sub, h, Nat.min_eq_right h]
    · have hx : x.val ≤ p.rewards.val := Nat.le_of_lt (Nat.not_le.mp h)
      simp [Pots.draw_reward, Value.sub, h, hx, Nat.min_eq_left hx]
  · rfl

/-- Claim C8: split_in by a positive count yields a quotient and remainder
whose scaled recombination is exact; the checked multiplication inside scale
cannot overflow at the same count, since the quotient times the count never
exceeds the original stake. -/
theorem c8_split_scale_exact (s n : Nat) (hs : s < 2 ^ 64) (hn : 0 < n)
    (_hn32 : n < 2 ^ 32) :
    ∃ q r, Stake.split_in ⟨s⟩ n = some ⟨⟨⟨q⟩⟩, ⟨r⟩⟩ ∧
      StakeUnit.scale ⟨⟨q⟩⟩ n = some ⟨q * n⟩ ∧ q * n + r = s := by
  refine ⟨s / n, s % n, ?_, ?_, ?_⟩
  · simp [Stake.split_in, Nat.pos_iff_ne_zero.mp hn]
  · have hmul : s / n * n < 2 ^ 64 :=
      Nat.lt_of_le_of_lt (Nat.div_mul_le_self s n) hs
    simp only [StakeUnit.scale]
    rw [if_pos hmul]
  · have h := Nat.div_add_mod s n
    rw [Nat.mul_comm]
    omega

/-- Claim C8 witness at s = 7, n = 3. -/
theorem c8_witness :
    ∃ q r, Stake.split_in ⟨7⟩ 3 = some ⟨⟨⟨q⟩⟩, ⟨r⟩⟩ ∧
      StakeUnit.scale ⟨⟨q⟩⟩ 3 = some ⟨q * 3⟩ ∧ q * 3 + r = 7 :=
  c8_split_scale_exact 7 3 (by norm_num) (by norm_num) (by norm_num)

/-- Claim C9: the precondition check of PercentStake::new accepts the pair
stake = total = 0; scale_value on that pair divides by zero and aborts
(modelled as an absent value); under the stronger precondition of a positive
total, scale_value always produces a value. -/
theorem c9_scale_value_totality :
    PercentStake.new ⟨0⟩ ⟨0⟩ = some ⟨⟨0⟩, ⟨0⟩⟩ ∧
    (∀ v, PercentStake.scale_value ⟨⟨0⟩, ⟨0⟩⟩ v = none) ∧
    (∀ ps v, 0 < ps.total.val → ∃ w, PercentStake.scale_value ps v = some w) := by
  refine ⟨by simp [PercentStake.new], fun v => by simp [PercentStake.scale_value], ?_⟩
  intro ps v h
  unfold PercentStake.scale_value
  rw [if_neg (Nat.pos_iff_ne_zero.mp h)]
  exact ⟨_, rfl⟩

/-- Claim C9 witness: totality at the positive total 2. -/
theorem c9_witness : ∃ w, PercentStake.scale_value ⟨⟨1⟩, ⟨2⟩⟩ ⟨5⟩ = some w :=
  c9_scale_value_totality.2.2 ⟨⟨1⟩, ⟨2⟩⟩ ⟨5⟩ (by norm_num)

/-- Claim C10: split_in is total exactly on positive counts: at count zero
the division aborts (modelled as an absent value), and at any positive count
it is defined on every stake and returns the floor quotient and remainder. -/
theorem c10_split_in_totality (s : Stake) (n : Nat) :
    Stake.split_in s 0 = none ∧
    (0 < n → Stake.split_in s n = some ⟨⟨⟨s.val / n⟩⟩, ⟨s.val % n⟩⟩ ∧
      n * (s.val / n) + s.val % n = s.val) := by
  refine ⟨rfl, fun h => ⟨?_, Nat.div_add_mod s.val n⟩⟩
  simp [Stake.split_in, Nat.pos_iff_ne_zero.mp h]

theorem from_u8_none_of_gt {b : Nat} (h : 11 < b) :
    EntrySerializeCode.from_u8 b = none := by
  unfold EntrySerializeCode.from_u8
  repeat rw [if_neg (by omega)]

theorem ledger_serialize_flatten {B : Type} (enc : EntrySerializeCode → B → List Nat)
    (entries : List (EntrySerializeCode × B)) :
    ledger_serialize enc entries =
      (entries.map fun e => e.1.toU8 :: enc e.1 e.2).flatten ++ [11] := by
  induction entries with
  | nil => rfl
  | cons e es ih => simp [ledger_serialize, ih]

/-- Claim C7: the snapshot stream writes, per entry, a one-byte code in the
range zero to ten followed by the body encoding and finishes with the
terminal code eleven; decoding reads the code byte, returns the stop entry
on eleven, dispatches to the decoder of the matching kind on a known code,
and fails with an InvalidData error naming the code on any code above
eleven. The per-kind body codecs enter as parameters since their types live
outside the provided sources. -/
theorem c7_snapshot_stream {B : Type} (enc : EntrySerializeCode → B → List Nat)
    (dec : EntrySerializeCode → List Nat → Except RecErr (B × List Nat))
    (entries : List (EntrySerializeCode × B)) (b : Nat) (rest : List Nat)
    (code : EntrySerializeCode) :
    ledger_serialize enc entries =
      (entries.map fun e => e.1.toU8 :: enc e.1 e.2).flatten ++ [11] ∧
    (∀ e ∈ entries, e.1 ≠ .serializationEnd → e.1.toU8 ≤ 10) ∧
    (11 < b →
      unpack_entry_owned dec (b :: rest) =
        .error (.invalidData
          ("Error reading Entry, not recognized type code " ++ toString b))) ∧
    unpack_entry_owned dec (11 :: rest) = .ok (.stopEntry, rest) ∧
    (code ≠ .serializationEnd →
      unpack_entry_owned dec (code.toU8 :: rest) =
        (dec code rest).map fun x => (.entry code x.1, x.2)) := by
  refine ⟨ledger_serialize_flatten enc entries, ?_, ?_, rfl, ?_⟩
  · rintro ⟨c, body⟩ _ hne
    cases c <;> simp_all [EntrySerializeCode.toU8]
  · intro hb
    simp [unpack_entry_owned, from_u8_none_of_gt hb]
  · intro hne
    cases code <;> first
      | rfl
      | exact absurd rfl hne

/-- Claim C7 witness: the trivial body codec over a unit body type, at the
unknown code thirteen, at the terminal code, and at the pot code. -/
theorem c7_witness :
    unpack_entry_owned (fun _ l => (.ok ((), l) : Except RecErr (Unit × List Nat))) [13] =
      .error (.invalidData ("Error reading Entry, not recognized type code " ++ toString 13)) ∧
    unpack_entry_owned (fun _ l => (.ok ((), l) : Except RecErr (Unit × List Nat))) [11, 5] =
      .ok (.stopEntry, [5]) ∧
    unpack_entry_owned (fun _ l => (.ok ((), l) : Except RecErr (Unit × List Nat))) [1, 9] =
      .ok (.entry .pot (), [9]) := by
  refine ⟨?_, ?_, ?_⟩
  · exact (c7_snapshot_stream (fun _ _ => []) (fun _ l => .ok ((), l)) [] 13 [] .pot).2.2.1
      (by norm_num)
  · exact (c7_snapshot_stream (fun _ _ => []) (fun _ l => .ok ((), l)) [] 13 [5] .pot).2.2.2.1
  · exact ((c7_snapshot_stream (fun _ _ => []) (fun _ l => .ok ((), l)) [] 13 [9] .pot).2.2.2.2
      (by simp)).trans rfl

theorem ioSlice_append (n : Nat) (a b : List Nat) (h : a.length = n) :
    ioSlice n (a ++ b) = .ok (a, b) := by
  subst h
  rw [ioSlice, if_pos (by simp), List.take_left, List.drop_left]

theorem fragmentRawDeserialize_frame (f rest : List Nat) (hf : f.length < 2 ^ 32) :
    fragmentRawDeserialize (fragmentFrame f ++ rest) = .ok (f, rest) := by
  have h4 : (beBytes 4 (f.length % 2 ^ 32)).length = 4 := beBytes_length _ _
  have hv : beVal (beBytes 4 (f.length % 2 ^ 32)) = f.length := by
    rw [beVal_beBytes]
    have h1 : (256 : Nat) ^ 4 = 2 ^ 32 := by norm_num
    rw [h1, Nat.mod_mod_of_dvd _ dvd_rfl, Nat.mod_eq_of_lt hf]
  simp only [fragmentRawDeserialize, fragmentFrame, List.append_assoc]
  rw [ioSlice_append 4 _ _ h4]
  simp only [Except.bind, bind]
  rw [hv, ioSlice_append f.length f rest rfl]

theorem blockReadContents_frames (fs : List (List Nat)) (rest : List Nat)
    (acc : List (List Nat)) (hf : ∀ f ∈ fs, f.length < 2 ^ 32) :
    blockReadContents ((fs.map framedSize).sum)
      ((fs.map fragmentFrame).flatten ++ rest) acc = .ok (acc ++ fs, rest) := by
  induction fs generalizing acc with
  | nil =>
    unfold blockReadContents
    simp
  | cons f fs ih =>
    have hflen : f.length < 2 ^ 32 := hf f (by simp)
    have hrest : ∀ g ∈ fs, g.length < 2 ^ 32 := fun g hg => hf g (by simp [hg])
    unfold blockReadContents
    rw [dif_neg (by simp [framedSize])]
    rw [List.map_cons, List.flatten_cons, List.append_assoc,
      fragmentRawDeserialize_frame f _ hflen]
    dsimp only
    rw [if_neg (by simp [framedSize])]
    have hsz : (((f :: fs).map framedSize).sum) - (4 + f.length) =
        (fs.map framedSize).sum := by
      simp [framedSize]
    rw [hsz]
    rw [ih (acc ++ [f]) hrest]
    simp

theorem blockReadContents_prefix (pre : List (List Nat)) (s : Nat) (X : List Nat)
    (acc : List (List Nat)) (hp : ∀ f ∈ pre, f.length < 2 ^ 32) (hs : 0 < s) :
    blockReadContents ((pre.map framedSize).sum + s)
      ((pre.map fragmentFrame).flatten ++ X) acc =
    blockReadContents s X (acc ++ pre) := by
  induction pre generalizing acc with
  | nil => simp
  | cons f fs ih =>
    have hflen : f.length < 2 ^ 32 := hp f (by simp)
    have hrest : ∀ g ∈ fs, g.length < 2 ^ 32 := fun g hg => hp g (by simp [hg])
    conv =>
      lhs
      unfold blockReadContents
    rw [dif_neg (by simp [framedSize])]
    rw [List.map_cons, List.flatten_cons, List.append_assoc,
      fragmentRawDeserialize_frame f _ hflen]
    dsimp only
    rw [if_neg (by simp [framedSize]; omega)]
    have hsz : (((f :: fs).map framedSize).sum + s) - (4 + f.length) =
        (fs.map framedSize).sum + s := by
      simp [framedSize]
      omega
    rw [hsz]
    rw [ih (acc ++ [f]) hrest]
    simp

theorem blockReadContents_overrun (g grest : List Nat) (s : Nat)
    (acc : List (List Nat)) (hg : g.length < 2 ^ 32) (hs : 0 < s)
    (hgs : s < 4 + g.length) :
    blockReadContents s (fragmentFrame g ++ grest) acc =
      .error (.structureInvalid (fragmentSizeMsg (4 + g.length) s)) := by
  unfold blockReadContents
  rw [dif_neg (by omega)]
  rw [fragmentRawDeserialize_frame g grest hg]
  dsimp only
  rw [if_pos (by omega)]

/-- Claim C3: decoding the fragment region of a block against the declared
content size and content hash of its header (hashing and header decoding are
collaborator parameters, and fragments are their raw payload bytes, see the
definitions): a well-formed stream whose declared hash matches the
recomputed hash over the decoded fragments and whose declared size matches
the framed sizes decodes successfully; a declared hash that differs fails
with an InvalidData error reporting both hashes; a fragment whose framed
size exceeds the remaining declared content size fails with a
StructureInvalid error. -/
theorem c3_block_decode_enforcement (hash : List Nat → Nat)
    (frags : List (List Nat)) (declared : Nat) (rest : List Nat)
    (pre : List (List Nat)) (g : List Nat) (s : Nat) (grest : List Nat)
    (hlen : ∀ f ∈ frags, f.length < 2 ^ 32)
    (hpre : ∀ f ∈ pre, f.length < 2 ^ 32) (hg : g.length < 2 ^ 32) :
    (declared = hash (frags.map fragmentFrame).flatten →
      blockDeserializeBody hash ((frags.map framedSize).sum) declared
        ((frags.map fragmentFrame).flatten ++ rest) = .ok (frags, rest)) ∧
    (declared ≠ hash (frags.map fragmentFrame).flatten →
      blockDeserializeBody hash ((frags.map framedSize).sum) declared
        ((frags.map fragmentFrame).flatten ++ rest) =
        .error (.invalidData
          (hashMismatchMsg (hash (frags.map fragmentFrame).flatten) declared))) ∧
    (0 < s → s < 4 + g.length →
      blockDeserializeBody hash ((pre.map framedSize).sum + s) declared
        ((pre.map fragmentFrame).flatten ++ (fragmentFrame g ++ grest)) =
        .error (.structureInvalid (fragmentSizeMsg (4 + g.length) s))) := by
  refine ⟨?_, ?_, ?_⟩
  · intro hd
    simp only [blockDeserializeBody, blockReadContents_frames frags rest [] hlen]
    simp only [Except.bind, bind, List.nil_append, contentsHashSize]
    rw [if_neg (by simp [hd])]
  · intro hd
    simp only [blockDeserializeBody, blockReadContents_frames frags rest [] hlen]
    simp only [Except.bind, bind, List.nil_append, contentsHashSize]
    rw [if_pos hd]
  · intro hs hgs
    simp only [blockDeserializeBody,
      blockReadContents_prefix pre s (fragmentFrame g ++ grest) [] hpre hs,
      List.nil_append, blockReadContents_overrun g grest s pre hg hs hgs]
    simp only [Except.bind, bind]

/-- Claim C3 witness: under the byte-sum hash, the single fragment [5] with
the matching declared size and hash decodes successfully. -/
theorem c3_witness :
    blockDeserializeBody (fun l => l.sum) (([[5]].map framedSize).sum)
      (([[5]].map fragmentFrame).flatten.sum)
      ([[5]].map fragmentFrame).flatten = .ok ([[5]], []) := by
  have h := c3_block_decode_enforcement (fun l => l.sum) [[5]]
    (([[5]].map fragmentFrame).flatten.sum) [] [] [5] 1 []
    (by decide) (by decide) (by decide)
  simpa using h.1 rfl

theorem rbSlice_append (n : Nat) (a b : List Nat) (h : a.length = n) :
    rbSlice n (a ++ b) = .ok (a, b) := by
  subst h
  rw [rbSlice, if_pos (by simp), List.take_left, List.drop_left]

theorem rbU64_append (n : Nat) (rest : List Nat) (h : n < 2 ^ 64) :
    rbU64 (beBytes 8 n ++ rest) = .ok (n, rest) := by
  have h8 : (256 : Nat) ^ 8 = 2 ^ 64 := by norm_num
  have h' : n < 256 ^ 8 := h8.symm ▸ h
  rw [rbU64, rbSlice_append 8 _ _ (beBytes_length 8 n)]
  simp [Except.map, beVal_beBytes_of_lt h']

theorem rbU32_append (n : Nat) (rest : List Nat) (h : n < 2 ^ 32) :
    rbU32 (beBytes 4 n ++ rest) = .ok (n, rest) := by
  have h4 : (256 : Nat) ^ 4 = 2 ^ 32 := by norm_num
  have h' : n < 256 ^ 4 := h4.symm ▸ h
  rw [rbU32, rbSlice_append 4 _ _ (beBytes_length 4 n)]
  simp [Except.map, beVal_beBytes_of_lt h']

theorem rbU8_cons (b : Nat) (rest : List Nat) : rbU8 (b :: rest) = .ok (b, rest) := by
  rw [rbU8, show b :: rest = [b] ++ rest from rfl, rbSlice_append 1 [b] rest rfl]
  simp [Except.map, beVal]

theorem rbNzU64_append (n : Nat) (rest : List Nat) (h : n < 2 ^ 64) (hnz : n ≠ 0) :
    rbNzU64 (beBytes 8 n ++ rest) = .ok (n, rest) := by
  rw [rbNzU64, rbU64_append n rest h]
  simp [Except.bind, bind, hnz]

theorem rbNzU32_append (n : Nat) (rest : List Nat) (h : n < 2 ^ 32) (hnz : n ≠ 0) :
    rbNzU32 (beBytes 4 n ++ rest) = .ok (n, rest) := by
  rw [rbNzU32, rbU32_append n rest h]
  simp [Except.bind, bind, hnz]

theorem rdSlice_append (n : Nat) (a b : List Nat) (h : a.length = n) :
    rdSlice n (a ++ b) = .ok (a, b) := by
  subst h
  rw [rdSlice, if_pos (by simp), List.take_left, List.drop_left]

theorem u64_payload_roundtrip (n : Nat) (h : n < 2 ^ 64) :
    u64FromPayload (u64ToPayload n) = .ok n := by
  have h8 : (256 : Nat) ^ 8 = 2 ^ 64 := by norm_num
  have h' : n < 256 ^ 8 := h8.symm ▸ h
  rw [u64ToPayload, u64FromPayload, if_pos (beBytes_length 8 n),
    beVal_beBytes_of_lt h']

theorem u32_payload_roundtrip (n : Nat) (h : n < 2 ^ 32) :
    u32FromPayload (u32ToPayload n) = .ok n := by
  have h4 : (256 : Nat) ^ 4 = 2 ^ 32 := by norm_num
  have h' : n < 256 ^ 4 := h4.symm ▸ h
  rw [u32ToPayload, u32FromPayload, if_pos (beBytes_length 4 n),
    beVal_beBytes_of_lt h']

theorem u64_payload_slice_roundtrip (a : List Nat) (n : Nat) (h : n < 2 ^ 64)
    (ha : a = beBytes 8 n) : u64FromPayload a = .ok n := by
  subst ha
  exact u64_payload_roundtrip n h

theorem nzNew_getD_roundtrip (o : Option Nat) (h : nzWf (2 ^ 64) o = true) :
    nzNew (o.getD 0) = o := by
  cases o with
  | none => rfl
  | some v =>
    simp only [nzWf, decide_eq_true_eq] at h
    simp [nzNew, h.1]

theorem take_of_len_eq (l : List Nat) (n : Nat) (h : l.length = n) : l.take n = l := by
  rw [← h, List.take_length]

theorem nzWf_getD_lt (o : Option Nat) (h : nzWf (2 ^ 64) o = true) :
    o.getD 0 < 2 ^ 64 := by
  cases o with
  | none => simp
  | some v =>
    simp only [nzWf, decide_eq_true_eq] at h
    simpa using h.2

theorem rational_payload_roundtrip (r : Rational) (hn : r.numerator < 2 ^ 64)
    (hd : r.denominator ≠ 0) (hdl : r.denominator < 2 ^ 64) :
    rationalFromPayload (rationalToPayload r) = .ok r := by
  simp only [rationalToPayload, rationalFromPayload]
  rw [rbU64_append _ _ hn]
  simp only [Except.bind, bind]
  rw [← List.append_nil (beBytes 8 r.denominator), rbNzU64_append _ _ hdl hd]
  rfl

theorem taxType_payload_roundtrip (t : TaxType) (hf : t.fixed < 2 ^ 64)
    (hn : t.ratio.numerator < 2 ^ 64) (hd : t.ratio.denominator ≠ 0)
    (hdl : t.ratio.denominator < 2 ^ 64) (hl : nzWf (2 ^ 64) t.max_limit = true) :
    taxTypeFromPayload (taxTypeToPayload t) = .ok t := by
  simp only [taxTypeToPayload, taxTypeFromPayload, List.append_assoc]
  rw [rbU64_append _ _ hf]
  simp only [Except.bind, bind]
  rw [rbU64_append _ _ hn]
  simp only [Except.bind, bind]
  rw [rbNzU64_append _ _ hdl hd]
  simp only [Except.bind, bind]
  rw [← List.append_nil (beBytes 8 (t.max_limit.getD 0)),
    rbU64_append _ _ (nzWf_getD_lt _ hl)]
  simp only [Except.bind, bind, rbEnd, List.isEmpty_nil, if_pos trivial]
  rw [nzNew_getD_roundtrip _ hl]

theorem rewardParams_payload_roundtrip (r : RewardParams)
    (hw : (ConfigParam.rewardParams r).wfb = true) :
    rewardParamsFromPayload (rewardParamsToPayload r) = .ok r := by
  cases r with
  | linear c ra es er =>
    simp only [ConfigParam.wfb, Bool.and_eq_true, decide_eq_true_eq] at hw
    obtain ⟨⟨⟨⟨hc, hn⟩, hd⟩, hes⟩, her⟩ := hw
    simp only [rewardParamsToPayload, rewardParamsFromPayload, List.append_assoc]
    rw [rbU8_cons]
    simp only [Except.bind, bind]
    rw [rbU64_append _ _ hc]
    simp only [Except.bind, bind]
    rw [rbU64_append _ _ hn]
    simp only [Except.bind, bind]
    rw [rbNzU64_append _ _ hd.2 hd.1]
    simp only [Except.bind, bind]
    rw [rbU32_append _ _ hes]
    simp only [Except.bind, bind]
    rw [← List.append_nil (beBytes 4 er), rbNzU32_append _ _ her.2 her.1]
    rfl
  | halving c ra es er =>
    simp only [ConfigParam.wfb, Bool.and_eq_true, decide_eq_true_eq] at hw
    obtain ⟨⟨⟨⟨hc, hn⟩, hd⟩, hes⟩, her⟩ := hw
    simp only [rewardParamsToPayload, rewardParamsFromPayload, List.append_assoc]
    rw [rbU8_cons]
    simp only [Except.bind, bind]
    rw [rbU64_append _ _ hc]
    simp only [Except.bind, bind]
    rw [rbU64_append _ _ hn]
    simp only [Except.bind, bind]
    rw [rbNzU64_append _ _ hd.2 hd.1]
    simp only [Except.bind, bind]
    rw [rbU32_append _ _ hes]
    simp only [Except.bind, bind]
    rw [← List.append_nil (beBytes 4 er), rbNzU32_append _ _ her.2 her.1]
    rfl

theorem linearFee_take_drop (A B C : List Nat) (hA : A.length = 8)
    (hB : B.length = 8) (hC : C.length = 8) :
    (A ++ B ++ C).take 8 = A ∧ ((A ++ B ++ C).drop 8).take 8 = B ∧
      ((A ++ B ++ C).drop 16).take 8 = C := by
  refine ⟨?_, ?_, ?_⟩
  · rw [List.append_assoc]
    exact List.take_left' hA
  · rw [List.append_assoc, List.drop_left' hA, List.take_left' hB]
  · rw [show (16 : Nat) = (A ++ B).length by simp [hA, hB], List.drop_left,
      take_of_len_eq C 8 hC]

theorem linearFee_payload_roundtrip (f : LinearFee) (hc : f.constant < 2 ^ 64)
    (hco : f.coefficient < 2 ^ 64) (hce : f.certificate < 2 ^ 64)
    (hpc : f.per_certificate_fees = perCertificateFeeDefault)
    (hpv : f.per_vote_certificate_fees = perVoteCertificateFeeDefault) :
    linearFeeFromPayload (linearFeeToPayload f) = .ok f := by
  obtain ⟨e1, e2, e3⟩ := linearFee_take_drop (beBytes 8 f.constant)
    (beBytes 8 f.coefficient) (beBytes 8 f.certificate)
    (beBytes_length 8 _) (beBytes_length 8 _) (beBytes_length 8 _)
  simp only [linearFeeToPayload, linearFeeFromPayload]
  rw [if_pos (by simp [beBytes_length])]
  rw [e1, e2, e3, u64_payload_slice_roundtrip _ _ hc rfl]
  simp only [Except.bind, bind]
  rw [u64_payload_slice_roundtrip _ _ hco rfl]
  simp only [Except.bind, bind]
  rw [u64_payload_slice_roundtrip _ _ hce rfl]
  simp only [Except.bind, bind]
  rw [← hpc, ← hpv]

theorem perCertificateFee_payload_roundtrip (f : PerCertificateFee)
    (h1 : nzWf (2 ^ 64) f.certificate_pool_registration = true)
    (h2 : nzWf (2 ^ 64) f.certificate_stake_delegation = true)
    (h3 : nzWf (2 ^ 64) f.certificate_owner_stake_delegation = true) :
    perCertificateFeeFromPayload (perCertificateFeeToPayload f) = .ok f := by
  obtain ⟨e1, e2, e3⟩ := linearFee_take_drop
    (beBytes 8 (f.certificate_pool_registration.getD 0))
    (beBytes 8 (f.certificate_stake_delegation.getD 0))
    (beBytes 8 (f.certificate_owner_stake_delegation.getD 0))
    (beBytes_length 8 _) (beBytes_length 8 _) (beBytes_length 8 _)
  simp only [perCertificateFeeToPayload, perCertificateFeeFromPayload]
  rw [if_pos (by simp [beBytes_length])]
  rw [e1, e2, e3, u64_payload_slice_roundtrip _ _ (nzWf_getD_lt _ h1) rfl]
  simp only [Except.bind, bind]
  rw [u64_payload_slice_roundtrip _ _ (nzWf_getD_lt _ h2) rfl]
  simp only [Except.bind, bind]
  rw [u64_payload_slice_roundtrip _ _ (nzWf_getD_lt _ h3) rfl]
  simp only [Except.bind, bind]
  rw [nzNew_getD_roundtrip _ h1, nzNew_getD_roundtrip _ h2, nzNew_getD_roundtrip _ h3]

theorem perVoteCertificateFee_payload_roundtrip (f : PerVoteCertificateFee)
    (h1 : nzWf (2 ^ 64) f.certificate_vote_plan = true)
    (h2 : nzWf (2 ^ 64) f.certificate_vote_cast = true) :
    perVoteCertificateFeeFromPayload (perVoteCertificateFeeToPayload f) = .ok f := by
  have e1 : (beBytes 8 (f.certificate_vote_plan.getD 0)
      ++ beBytes 8 (f.certificate_vote_cast.getD 0)).take 8 =
      beBytes 8 (f.certificate_vote_plan.getD 0) := List.take_left' (beBytes_length 8 _)
  have e2 : ((beBytes 8 (f.certificate_vote_plan.getD 0)
      ++ beBytes 8 (f.certificate_vote_cast.getD 0)).drop 8).take 8 =
      beBytes 8 (f.certificate_vote_cast.getD 0) := by
    rw [List.drop_left' (beBytes_length 8 _), take_of_len_eq _ 8 (beBytes_length 8 _)]
  simp only [perVoteCertificateFeeToPayload, perVoteCertificateFeeFromPayload]
  rw [if_pos (by simp [beBytes_length])]
  rw [e1, e2, u64_payload_slice_roundtrip _ _ (nzWf_getD_lt _ h1) rfl]
  simp only [Except.bind, bind]
  rw [u64_payload_slice_roundtrip _ _ (nzWf_getD_lt _ h2) rfl]
  simp only [Except.bind, bind]
  rw [nzNew_getD_roundtrip _ h1, nzNew_getD_roundtrip _ h2]

theorem nzPair_payload_roundtrip (a b : Nat) (ha : a ≠ 0) (hal : a < 2 ^ 32)
    (hb : b ≠ 0) (hbl : b < 2 ^ 32) :
    nzPairFromPayload (nzPairToPayload a b) = .ok (a, b) := by
  simp only [nzPairToPayload, nzPairFromPayload]
  rw [rbNzU32_append _ _ hal ha]
  simp only [Except.bind, bind]
  rw [← List.append_nil (beBytes 4 b), rbNzU32_append _ _ hbl hb]

theorem configParamReadBody_roundtrip (p : ConfigParam) (hw : p.wfb = true)
    (hd : p.defaulted = true) :
    configParamReadBody p.tag p.to_payload = .ok p := by
  cases p with
  | block0Date d =>
    simp only [ConfigParam.wfb, decide_eq_true_eq] at hw
    simp only [ConfigParam.tag, ConfigParam.to_payload, configParamReadBody]
    rw [u64_payload_roundtrip _ hw]
    rfl
  | discrimination d => cases d <;> rfl
  | consensusVersion c => cases c <;> rfl
  | slotsPerEpoch n =>
    simp only [ConfigParam.wfb, decide_eq_true_eq] at hw
    simp only [ConfigParam.tag, ConfigParam.to_payload, configParamReadBody]
    rw [u32_payload_roundtrip _ hw]
    rfl
  | slotDuration n => rfl
  | epochStabilityDepth n =>
    simp only [ConfigParam.wfb, decide_eq_true_eq] at hw
    simp only [ConfigParam.tag, ConfigParam.to_payload, configParamReadBody]
    rw [u32_payload_roundtrip _ hw]
    rfl
  | consensusGenesisPraosActiveSlotsCoeff m =>
    simp only [ConfigParam.wfb, decide_eq_true_eq] at hw
    simp only [ConfigParam.tag, ConfigParam.to_payload, configParamReadBody]
    rw [u64_payload_roundtrip _ hw]
    rfl
  | blockContentMaxSize n =>
    simp only [ConfigParam.wfb, decide_eq_true_eq] at hw
    simp only [ConfigParam.tag, ConfigParam.to_payload, configParamReadBody]
    rw [u32_payload_roundtrip _ hw]
    rfl
  | addBftLeader k =>
    simp only [ConfigParam.wfb, bytes32Wf, Bool.and_eq_true, decide_eq_true_eq] at hw
    simp only [ConfigParam.tag, ConfigParam.to_payload, configParamReadBody,
      bftLeaderIdToPayload, bftLeaderIdFromPayload]
    rw [if_pos hw.1]
    rfl
  | removeBftLeader k =>
    simp only [ConfigParam.wfb, bytes32Wf, Bool.and_eq_true, decide_eq_true_eq] at hw
    simp only [ConfigParam.tag, ConfigParam.to_payload, configParamReadBody,
      bftLeaderIdToPayload, bftLeaderIdFromPayload]
    rw [if_pos hw.1]
    rfl
  | linearFee f =>
    simp only [ConfigParam.wfb, Bool.and_eq_true, decide_eq_true_eq] at hw
    simp only [ConfigParam.defaulted, Bool.and_eq_true, decide_eq_true_eq] at hd
    obtain ⟨⟨⟨⟨⟨⟨⟨hc, hco⟩, hce⟩, _⟩, _⟩, _⟩, _⟩, _⟩ := hw
    simp only [ConfigParam.tag, ConfigParam.to_payload, configParamReadBody]
    rw [linearFee_payload_roundtrip f hc hco hce hd.1 hd.2]
    rfl
  | proposalExpiration n =>
    simp only [ConfigParam.wfb, decide_eq_true_eq] at hw
    simp only [ConfigParam.tag, ConfigParam.to_payload, configParamReadBody]
    rw [u32_payload_roundtrip _ hw]
    rfl
  | kesUpdateSpeed n =>
    simp only [ConfigParam.wfb, decide_eq_true_eq] at hw
    simp only [ConfigParam.tag, ConfigParam.to_payload, configParamReadBody]
    rw [u32_payload_roundtrip _ hw]
    rfl
  | treasuryAdd v =>
    simp only [ConfigParam.wfb, decide_eq_true_eq] at hw
    simp only [ConfigParam.tag, ConfigParam.to_payload, configParamReadBody]
    rw [u64_payload_roundtrip _ hw]
    rfl
  | treasuryParams t =>
    simp only [ConfigParam.wfb, Bool.and_eq_true, decide_eq_true_eq] at hw
    obtain ⟨⟨⟨hf, hn⟩, hdd⟩, hl⟩ := hw
    simp only [ConfigParam.tag, ConfigParam.to_payload, configParamReadBody]
    rw [taxType_payload_roundtrip t hf hn hdd.1 hdd.2 hl]
    rfl
  | rewardPot v =>
    simp only [ConfigParam.wfb, decide_eq_true_eq] at hw
    simp only [ConfigParam.tag, ConfigParam.to_payload, configParamReadBody]
    rw [u64_payload_roundtrip _ hw]
    rfl
  | rewardParams r =>
    simp only [ConfigParam.tag, ConfigParam.to_payload, configParamReadBody]
    rw [rewardParams_payload_roundtrip r hw]
    rfl
  | perCertificateFees f =>
    simp only [ConfigParam.wfb, Bool.and_eq_true] at hw
    obtain ⟨⟨h1, h2⟩, h3⟩ := hw
    simp only [ConfigParam.tag, ConfigParam.to_payload, configParamReadBody]
    rw [perCertificateFee_payload_roundtrip f h1 h2 h3]
    rfl
  | feesInTreasury b => cases b <;> rfl
  | rewardLimitNone => rfl
  | rewardLimitByAbsoluteStake r =>
    simp only [ConfigParam.wfb, Bool.and_eq_true, decide_eq_true_eq] at hw
    obtain ⟨hn, hdd⟩ := hw
    simp only [ConfigParam.tag, ConfigParam.to_payload, configParamReadBody]
    rw [rational_payload_roundtrip r hn hdd.1 hdd.2]
    rfl
  | poolRewardParticipationCapping a b =>
    simp only [ConfigParam.wfb, Bool.and_eq_true, decide_eq_true_eq] at hw
    obtain ⟨ha, hb⟩ := hw
    simp only [ConfigParam.tag, ConfigParam.to_payload, configParamReadBody]
    rw [nzPair_payload_roundtrip a b ha.1 ha.2 hb.1 hb.2]
    rfl
  | addCommitteeId c =>
    simp only [ConfigParam.wfb, bytes32Wf, Bool.and_eq_true, decide_eq_true_eq] at hw
    simp only [ConfigParam.tag, ConfigParam.to_payload, configParamReadBody,
      committeeIdToPayload, committeeIdFromPayload]
    rw [if_pos hw.1]
    rfl
  | removeCommitteeId c =>
    simp only [ConfigParam.wfb, bytes32Wf, Bool.and_eq_true, decide_eq_true_eq] at hw
    simp only [ConfigParam.tag, ConfigParam.to_payload, configParamReadBody,
      committeeIdToPayload, committeeIdFromPayload]
    rw [if_pos hw.1]
    rfl
  | perVoteCertificateFees f =>
    simp only [ConfigParam.wfb, Bool.and_eq_true] at hw
    obtain ⟨h1, h2⟩ := hw
    simp only [ConfigParam.tag, ConfigParam.to_payload, configParamReadBody]
    rw [perVoteCertificateFee_payload_roundtrip f h1 h2]
    rfl
  | transactionMaxExpiryEpochs n => rfl

theorem tag_toU16_le (t : Tag) : t.toU16 ≤ 29 := by
  cases t <;> simp [Tag.toU16]

theorem to_payload_length_lt (p : ConfigParam) (hw : p.wfb = true) :
    p.to_payload.length < 64 := by
  cases p with
  | discrimination d => cases d <;> simp [ConfigParam.to_payload, discriminationToPayload]
  | consensusVersion c =>
    simp [ConfigParam.to_payload, consensusTypeToPayload, beBytes_length]
  | rewardParams r =>
    cases r <;> simp [ConfigParam.to_payload, rewardParamsToPayload, beBytes_length]
  | addBftLeader k =>
    simp only [ConfigParam.wfb, bytes32Wf, Bool.and_eq_true, decide_eq_true_eq] at hw
    simp [ConfigParam.to_payload, bftLeaderIdToPayload, hw.1]
  | removeBftLeader k =>
    simp only [ConfigParam.wfb, bytes32Wf, Bool.and_eq_true, decide_eq_true_eq] at hw
    simp [ConfigParam.to_payload, bftLeaderIdToPayload, hw.1]
  | addCommitteeId c =>
    simp only [ConfigParam.wfb, bytes32Wf, Bool.and_eq_true, decide_eq_true_eq] at hw
    simp [ConfigParam.to_payload, committeeIdToPayload, hw.1]
  | removeCommitteeId c =>
    simp only [ConfigParam.wfb, bytes32Wf, Bool.and_eq_true, decide_eq_true_eq] at hw
    simp [ConfigParam.to_payload, committeeIdToPayload, hw.1]
  | _ =>
    simp [ConfigParam.to_payload, u64ToPayload, u32ToPayload, u8ToPayload,
      boolToPayload, linearFeeToPayload, taxTypeToPayload, rationalToPayload,
      nzPairToPayload, perCertificateFeeToPayload, perVoteCertificateFeeToPayload,
      beBytes_length]

theorem configParam_read_serialize (p : ConfigParam) (hw : p.wfb = true)
    (hd : p.defaulted = true) (rest : List Nat) :
    p.serialize = .ok (beBytes 2 (64 * p.tag.toU16 + p.to_payload.length)
        ++ p.to_payload) ∧
    ConfigParam.read ((beBytes 2 (64 * p.tag.toU16 + p.to_payload.length)
        ++ p.to_payload) ++ rest) = .ok (p, rest) := by
  have hlen : p.to_payload.length < 64 := to_payload_length_lt p hw
  constructor
  · rw [ConfigParam.serialize, tagLen_new_eq p.tag hlen]
  · have h2 : (256 : Nat) ^ 2 = 65536 := by norm_num
    have htl : 64 * p.tag.toU16 + p.to_payload.length < 256 ^ 2 := by
      have := tag_toU16_le p.tag
      rw [h2]
      omega
    simp only [ConfigParam.read, List.append_assoc]
    rw [rdSlice_append 2 _ _ (beBytes_length 2 _)]
    simp only [Except.bind, bind]
    rw [beVal_beBytes_of_lt htl, tagLen_get_len_packed p.tag hlen,
      rdSlice_append _ _ _ rfl]
    dsimp only
    rw [tagLen_get_tag_packed p.tag hlen]
    dsimp only
    rw [configParamReadBody_roundtrip p hw hd]

theorem serializeParamsList_roundtrip (l : List ConfigParam)
    (h : ∀ q ∈ l, q.wfb = true ∧ q.defaulted = true) :
    ∃ body, serializeParamsList l = .ok body ∧
      ∀ rest, readParamsN l.length (body ++ rest) = .ok (l, rest) := by
  induction l with
  | nil => exact ⟨[], rfl, fun rest => rfl⟩
  | cons p ps ih =>
    have hp := h p (by simp)
    have hps : ∀ q ∈ ps, q.wfb = true ∧ q.defaulted = true :=
      fun q hq => h q (by simp [hq])
    obtain ⟨body, hbody, hread⟩ := ih hps
    refine ⟨(beBytes 2 (64 * p.tag.toU16 + p.to_payload.length) ++ p.to_payload)
      ++ body, ?_, ?_⟩
    · simp only [serializeParamsList, (configParam_read_serialize p hp.1 hp.2 []).1,
        hbody, Except.bind, bind]
    · intro rest
      simp only [List.length_cons, readParamsN]
      rw [List.append_assoc (beBytes 2 (64 * p.tag.toU16 + p.to_payload.length)
        ++ p.to_payload) body rest]
      rw [(configParam_read_serialize p hp.1 hp.2 (body ++ rest)).2]
      simp only [Except.bind, bind]
      rw [hread rest]

/-- Claim C4, counterexample: a LinearFee parameter carrying a non-default
per-certificate fee block is a representable, encodable value, but the
config payload writes only the three u64 components: decoding the encoding
yields the fee with the per-certificate blocks reset to default, which
differs from the original. -/
theorem c4_counterexample :
    (ConfigParam.linearFee ⟨0, 0, 0, ⟨some 1, none, none⟩, ⟨none, none⟩⟩).wfb = true ∧
    ConfigParam.serialize (.linearFee ⟨0, 0, 0, ⟨some 1, none, none⟩, ⟨none, none⟩⟩) =
      .ok (beBytes 2 920 ++ List.replicate 24 0) ∧
    ConfigParam.read (beBytes 2 920 ++ List.replicate 24 0) =
      .ok (.linearFee ⟨0, 0, 0, perCertificateFeeDefault, perVoteCertificateFeeDefault⟩, []) ∧
    ConfigParam.linearFee ⟨0, 0, 0, ⟨some 1, none, none⟩, ⟨none, none⟩⟩ ≠
      .linearFee ⟨0, 0, 0, perCertificateFeeDefault, perVoteCertificateFeeDefault⟩ := by
  refine ⟨by decide, by rfl, by rfl, by decide⟩

/-- Claim C4 (amended): encoding then decoding reproduces every ConfigParam
whose components fit their machine word ranges, provided a LinearFee carries
its default per-certificate and per-vote fee blocks (the counterexample
shows the payload drops them otherwise); encode writes the packed 16-bit
TagLen then the per-variant payload, decode reads the TagLen, takes exactly
that many payload bytes and dispatches per tag. Likewise a ConfigParams list
of fewer than 65536 such members round-trips through the 16-bit count
followed by the member encodings. -/
theorem c4_config_roundtrip_amended (p : ConfigParam) (ps : ConfigParams)
    (rest : List Nat) :
    (p.wfb = true → p.defaulted = true →
      ∃ bytes, p.serialize = .ok bytes ∧ ConfigParam.read (bytes ++ rest) = .ok (p, rest)) ∧
    ((∀ q ∈ ps.params, q.wfb = true ∧ q.defaulted = true) →
      ps.params.length < 2 ^ 16 →
      ∃ bytes, ps.serialize = .ok bytes ∧
        ConfigParams.read (bytes ++ rest) = .ok (ps, rest)) := by
  constructor
  · intro hw hd
    obtain ⟨hs, hr⟩ := configParam_read_serialize p hw hd rest
    exact ⟨_, hs, hr⟩
  · intro hall hlen
    obtain ⟨body, hbody, hread⟩ := serializeParamsList_roundtrip ps.params hall
    have h2 : (256 : Nat) ^ 2 = 2 ^ 16 := by norm_num
    have hcnt : ps.params.length % 2 ^ 16 = ps.params.length := Nat.mod_eq_of_lt hlen
    refine ⟨beBytes 2 (ps.params.length % 2 ^ 16) ++ body, ?_, ?_⟩
    · simp only [ConfigParams.serialize, hbody, Except.bind, bind]
    · simp only [ConfigParams.read, List.append_assoc]
      rw [rdSlice_append 2 _ _ (beBytes_length 2 _)]
      simp only [Except.bind, bind]
      rw [beVal_beBytes_of_lt (by rw [h2, hcnt]; exact hlen), hcnt, hread rest]

/-- Claim C4 witness: the parameter SlotsPerEpoch(43200) and the two-member
list of it and RewardLimitNone round-trip. -/
theorem c4_witness :
    (∃ bytes, (ConfigParam.slotsPerEpoch 43200).serialize = .ok bytes ∧
      ConfigParam.read (bytes ++ []) = .ok (.slotsPerEpoch 43200, [])) ∧
    (∃ bytes, ConfigParams.serialize ⟨[.slotsPerEpoch 43200, .rewardLimitNone]⟩ = .ok bytes ∧
      ConfigParams.read (bytes ++ []) =
        .ok (⟨[.slotsPerEpoch 43200, .rewardLimitNone]⟩, [])) := by
  constructor
  · exact (c4_config_roundtrip_amended (.slotsPerEpoch 43200)
      ⟨[]⟩ []).1 (by decide) (by decide)
  · exact (c4_config_roundtrip_amended (.slotsPerEpoch 43200)
      ⟨[.slotsPerEpoch 43200, .rewardLimitNone]⟩ []).2 (by decide) (by decide)

/-- Claim C10 witness at stake 7, count 3. -/
theorem c10_witness :
    Stake.split_in ⟨7⟩ 0 = none ∧ Stake.split_in ⟨7⟩ 3 = some ⟨⟨⟨2⟩⟩, ⟨1⟩⟩ := by
  have h := c10_split_in_totality ⟨7⟩ 3
  exact ⟨h.1, ((h.2 (by norm_num)).1).trans (by decide)⟩

end ChainSpec
